import Mathlib

/-!
Verification development for the twin-cities repository.

The file shallowly embeds the core of the repository:

* `align` from `src/app.py` (the two-source alignment engine),
* the wikitext scraper from `scraper/scrape.py` (`parse_reference`,
  `get_reference`, `build_named_reference_dictionary`, `scrape_country`,
  `scrape_continent`, `get_country_name`),
* the RDF graph store from `grapher/twin_cities_graph.py`
  (`add_cities`, `get_cities`, `get_twins`, `get_references`).

Python `None`-able strings become `Option String`; code that can raise
(`AttributeError`, `UnboundLocalError`, `IndexError`, ...) returns `Except`
values whose error string names the Python exception.  Mutable objects are
modelled by explicit state passing; object identity for the mutable `City`
and `TwinCitiesAgreement` records of the scraper is modelled with an
explicit heap (a list of records addressed by index).
-/

namespace TwinCities

/-! ## Alignment engine: `align` from `src/app.py` (lines 121-149)

Python records are dictionaries carrying a string-valued key (`prop`)
among other data; we model a record as its key together with an opaque
payload distinguishing records with equal keys.  The Python function
compares `data_wikidata[i][prop]` and `data_wikipedia[j][prop]` with
`<` / `>` on Python strings, which is lexicographic comparison, the same
order as Lean's `<` on `String`. -/

/-- A record as consumed by `align`: its string key plus a payload. -/
structure Rec where
  key : String
  payload : Nat
deriving DecidableEq, Repr

/-- One output entry of `align`: a dictionary holding the `wikidata` side
(the left list), the `wikipedia` side (the right list), or both. -/
structure AlignEntry where
  wikidata : Option Rec
  wikipedia : Option Rec
deriving DecidableEq, Repr

/-- Shallow embedding of `align` (`src/app.py` lines 121-149): a sorted
merge of the `data_wikidata` (left) and `data_wikipedia` (right) lists. -/
def align : List Rec → List Rec → List AlignEntry
  | [], [] => []
  | [], r :: rs => ⟨none, some r⟩ :: align [] rs
  | l :: ls, [] => ⟨some l, none⟩ :: align ls []
  | l :: ls, r :: rs =>
    if l.key = r.key then ⟨some l, some r⟩ :: align ls rs
    else if l.key < r.key then ⟨some l, none⟩ :: align ls (r :: rs)
    else ⟨none, some r⟩ :: align (l :: ls) rs
termination_by l r => l.length + r.length

/-- The key an output entry is about: the left record's key when the left
side is present, otherwise the right record's key. -/
def entryKey (e : AlignEntry) : String :=
  match e.wikidata with
  | some l => l.key
  | none =>
    match e.wikipedia with
    | some r => r.key
    | none => ""

/-- The set of distinct keys across both input lists. -/
def keyUnion (L R : List Rec) : Finset String :=
  (L.map Rec.key).toFinset ∪ (R.map Rec.key).toFinset

/-! ## Scraper data model (`scraper/scrape.py` lines 9-41)

The three dataclasses.  Optional (`str | None`) fields become
`Option String`.  `City.ref` and `TwinCitiesAgreement.refs` hold
`Option Reference` because `scrape_continent` appends the result of
`parse_reference` without a `None` check. -/

/-- The `Reference` dataclass (`scraper/scrape.py` lines 9-18). -/
structure Reference where
  url : Option String := none
  website : Option String := none
  title : Option String := none
  publisher : Option String := none
  language : Option String := none
  access_date : Option String := none
  date : Option String := none
deriving DecidableEq, Repr

/-- The `TwinCitiesAgreement` dataclass (`scraper/scrape.py` lines 21-28). -/
structure TwinCitiesAgreement where
  second_city : String
  second_country : String
  wiki_url : String
  wiki_text : String
  refs : List (Option Reference) := []
deriving DecidableEq, Repr

/-- The `City` dataclass (`scraper/scrape.py` lines 31-41). -/
structure City where
  name : String
  country : String
  wiki_url : String
  wiki_text : String
  source_page : Option String := none
  source_type : String := "country"
  ref : List (Option Reference) := []
  twin_cities : List TwinCitiesAgreement := []
deriving DecidableEq, Repr

/-! ## Wikitext node model

`mwparserfromhell` parses a page into a sequence of nodes.  `CNode` models
the content nodes that occur inside a `<ref>` tag (templates, external
links, text); `WNode` models the document-level node stream.  Template
parameters are modelled as (name, value) pairs (positional parameters get
their positional names "1", "2", ...). -/

/-- A content node inside a citation tag. -/
inductive CNode where
  | template (name : String) (params : List (String × String))
  | extLink (url : String)
  | ctext (s : String)
deriving DecidableEq, Repr

/-- A document node of a parsed page. -/
inductive WNode where
  | heading (title : String)
  | wikilink (title : String) (text : Option String)
  | tagRef (attrs : List (String × String)) (contents : List CNode)
  | tagLi
  | tagOther (tagName : String)
  | templateN (name : String) (params : List (String × String))
  | wtext (s : String)
deriving DecidableEq, Repr

/-- First-match association-list lookup: Python `d[k]` / `k in d` on a
dict modelled as an insertion-ordered association list with unique keys. -/
def dictGet [DecidableEq α] : List (α × β) → α → Option β
  | [], _ => none
  | (k, v) :: rest, a => if k = a then some v else dictGet rest a

/-- Python `d[k] = v`: overwrite the existing binding or append a new one. -/
def dictInsert [DecidableEq α] (d : List (α × β)) (k : α) (v : β) : List (α × β) :=
  match d with
  | [] => [(k, v)]
  | (k', v') :: rest => if k' = k then (k, v) :: rest else (k', v') :: dictInsert rest k v

/-- The last value of an attribute named `name`: embeds the Python loop
`for attribute in attributes: if attribute.name == "name": name = ...`,
where a later assignment overwrites an earlier one. -/
def lastNameAttr (attrs : List (String × String)) : Option String :=
  attrs.foldl (fun acc a => if a.1 = "name" then some a.2 else acc) none

/-- `Template.get(k).value` guarded by `Template.has(k)`: first parameter
with the given name. -/
def tparamGet (ps : List (String × String)) (k : String) : Option String :=
  dictGet ps k

/-- `str(node)` for a content node, as far as the source inspects it (the
`startswith("url")` test and `str(nodes[1])` in `get_reference`).  A
template renders re-bracketed, an external link renders as its url. -/
def cnodeStr : CNode → String
  | .template nm ps =>
      "\x7b\x7b" ++ nm ++ String.join (ps.map (fun p => "|" ++ p.1 ++ "=" ++ p.2)) ++ "\x7d\x7d"
  | .extLink u => u
  | .ctext s => s

/-- The tail of `Scraper.get_reference` (`scraper/scrape.py` lines 286-295)
applied to `reference_txt`: an external link yields a url-only Reference, a
template is read with keyed `get` lookups, and a text node raises
`AttributeError` (`Text` has no `has`). -/
def refFromTxt : CNode → Except String Reference
  | .extLink u => .ok { url := some u }
  | .template _ ps =>
      .ok { url := tparamGet ps "url", website := tparamGet ps "website",
            title := tparamGet ps "title", publisher := tparamGet ps "publisher",
            language := tparamGet ps "language", access_date := tparamGet ps "access-date",
            date := tparamGet ps "date" }
  | .ctext _ => .error "AttributeError"

/-- `Scraper.get_reference` (`scraper/scrape.py` lines 271-295).  An empty
node list raises `IndexError` on `nodes[0]`. -/
def get_reference : List CNode → Except String Reference
  | [] => .error "IndexError"
  | [n] => refFromTxt n
  | n0 :: n1 :: _ =>
    if (cnodeStr n0).startsWith "url" then .ok { url := some (cnodeStr n1) }
    else refFromTxt n0

/-- `Scraper.parse_reference` (`scraper/scrape.py` lines 253-269).  A
fragment with attributes but no `name` attribute leaves the local `name`
unassigned, so the `name in reference_dict` test raises
`UnboundLocalError`. -/
def parse_reference (attrs : List (String × String)) (contents : List CNode)
    (refDict : List (String × Reference)) : Except String (Option Reference) :=
  if attrs.isEmpty then (get_reference contents).map some
  else
    match lastNameAttr attrs with
    | none => .error "UnboundLocalError"
    | some nm => .ok (dictGet refDict nm)

/-- One document node's contribution to the recursive
`wikitext.filter(matches=...)` stream: the node itself when it is a
template, tag, heading or wikilink, plus (for a citation tag) the template
nodes nested in its contents, in document order. -/
def filterOne : WNode → List WNode
  | .heading t => [.heading t]
  | .wikilink t x => [.wikilink t x]
  | .tagRef attrs cs =>
      .tagRef attrs cs :: cs.filterMap (fun c => match c with
        | .template nm ps => some (.templateN nm ps)
        | _ => none)
  | .tagLi => [.tagLi]
  | .tagOther t => [.tagOther t]
  | .templateN nm ps => [.templateN nm ps]
  | .wtext _ => []

/-- The filtered node stream the scraping loops iterate over. -/
def filteredNodes (ns : List WNode) : List WNode :=
  (ns.map filterOne).flatten

/-- State of `build_named_reference_dictionary`'s loop: the dictionary
built so far together with the loop-carried `name` variable (Python keeps
the binding from a previous iteration when the current tag has attributes
but no `name` attribute). -/
def buildDictAux : List (List (String × String) × List CNode) → Option String →
    List (String × Reference) → Except String (List (String × Reference))
  | [], _, d => .ok d
  | (attrs, contents) :: rest, curName, d =>
    if attrs.isEmpty then buildDictAux rest curName d
    else
      let curName' := match lastNameAttr attrs with
        | some nm => some nm
        | none => curName
      let isGood := attrs.all (fun a => a.1 != "group")
      if contents.length == 1 && isGood then
        match get_reference contents with
        | .error e => .error e
        | .ok r =>
          match curName' with
          | none => .error "UnboundLocalError"
          | some nm => buildDictAux rest curName' (dictInsert d nm r)
      else buildDictAux rest curName' d

/-- `Scraper.build_named_reference_dictionary` (`scraper/scrape.py`
lines 308-327): scan every citation tag of the page. -/
def build_named_reference_dictionary (ns : List WNode) :
    Except String (List (String × Reference)) :=
  buildDictAux ((filteredNodes ns).filterMap fun n => match n with
    | .tagRef a c => some (a, c)
    | _ => none) none []

/-- Python `str.strip(", \n'")`: remove the given characters from both
ends. -/
def pyStrip (s : String) : String :=
  let cs : List Char := [',', ' ', '\n', '\'']
  String.mk (((s.data.dropWhile (cs.contains ·)).reverse.dropWhile (cs.contains ·)).reverse)

/-- `str(node)` for a document node: mwparserfromhell nodes render back to
their wikitext (a heading with its `==` markers, a wikilink re-bracketed,
a citation tag with its attributes and contents, the `li` list marker as
`*`, a bare tag as its markup, a template re-braced, text as itself). -/
def wnodeStr : WNode → String
  | .heading t => "==" ++ t ++ "=="
  | .wikilink t none => "[[" ++ t ++ "]]"
  | .wikilink t (some x) => "[[" ++ t ++ "|" ++ x ++ "]]"
  | .tagRef attrs cs =>
      "<ref" ++ String.join (attrs.map (fun a => " " ++ a.1 ++ "=" ++ a.2)) ++ ">" ++
        String.join (cs.map cnodeStr) ++ "</ref>"
  | .tagLi => "*"
  | .tagOther t => "<" ++ t ++ ">"
  | .templateN nm ps => cnodeStr (.template nm ps)
  | .wtext s => s

/-- `wikitext.nodes[...].strip(", \n'")` on the node after a twin link:
every mwparserfromhell node inherits the full `str` interface through
`StringMixIn`, so `strip` succeeds on any node kind, stripping the node's
wikitext rendering. -/
def nodeStrip (n : WNode) : String :=
  pyStrip (wnodeStr n)

/-- Index of the first structurally equal node (`wikitext.index(line)`,
which raises `ValueError` when the node is not in the top-level list). -/
def pyIndexAux [DecidableEq α] : List α → α → Nat → Option Nat
  | [], _, _ => none
  | a :: rest, x, i => if a = x then some i else pyIndexAux rest x (i + 1)

/-- `wikitext.nodes[wikitext.index(line) + 1].strip(", \n'")`
(`scraper/scrape.py` lines 164 and 227): the stripped text of the
top-level node following the given one. -/
def nextNodeText (ns : List WNode) (w : WNode) : Except String String :=
  match pyIndexAux ns w 0 with
  | none => .error "ValueError"
  | some i =>
    match ns.get? (i + 1) with
    | none => .error "IndexError"
    | some n => .ok (nodeStrip n)

/-- `re.sub(r"\s+", "_", title)`: each maximal run of whitespace becomes a
single underscore.  The flag records whether the previous character was
part of a whitespace run. -/
def subWs : Bool → List Char → List Char
  | _, [] => []
  | prevWs, c :: rest =>
    if c.isWhitespace then
      if prevWs then subWs true rest else '_' :: subWs true rest
    else c :: subWs false rest

/-- `Scraper.get_url` (`scraper/scrape.py` lines 58-66). -/
def get_url (title : String) : String :=
  "https://en.wikipedia.org/wiki/" ++ String.mk (subWs false title.data)

/-- Update the element at an index, when in range. -/
def listModify (l : List α) (i : Nat) (f : α → α) : List α :=
  match l.get? i with
  | none => l
  | some a => l.set i (f a)

/-- Which scraping entry point is running: `scrape_continent` derives each
city's country from the current heading, `scrape_country` uses the single
supplied country name. -/
inductive SMode where
  | continent
  | country (name : String)
deriving DecidableEq, Repr

/-- State of the scraping loops.  Mutable `City` / `TwinCitiesAgreement`
objects live in `heap` (creation order); `appended` lists the heap indices
that were appended to the function-local `cities` result (the placeholder
city synthesised in the `li` branch is *not* appended); `cur` / `curTwin`
model the `city` and `twin_city` variables as heap addresses; `header`,
`count`, `lastCount` model the loop-local variables of the same names;
`pending` models additions to `self.countries_to_scrape`. -/
structure SState where
  heap : List City
  appended : List Nat
  cur : Option Nat
  curTwin : Option (Nat × Nat)
  header : Option String
  count : Nat
  lastCount : Int
  pending : List (String × Option String)
deriving DecidableEq, Repr

/-- Initial loop state (`scraper/scrape.py` lines 134-137 / 195-198). -/
def initState : SState :=
  { heap := [], appended := [], cur := none, curTwin := none,
    header := none, count := 0, lastCount := -1, pending := [] }

/-- `city.ref.append r` on the heap. -/
def pushCityRef (heap : List City) (ci : Nat) (r : Option Reference) : List City :=
  listModify heap ci (fun c => { c with ref := c.ref ++ [r] })

/-- `city.twin_cities.append tw` on the heap. -/
def pushTwin (heap : List City) (ci : Nat) (tw : TwinCitiesAgreement) : List City :=
  listModify heap ci (fun c => { c with twin_cities := c.twin_cities ++ [tw] })

/-- `twin_city.refs.append r` on the heap. -/
def pushTwinRef (heap : List City) (ci ti : Nat) (r : Option Reference) : List City :=
  listModify heap ci (fun c =>
    { c with twin_cities :=
        listModify c.twin_cities ti (fun t => { t with refs := t.refs ++ [r] }) })

/-- `set.add` on the pending-countries worklist. -/
def pendingAdd (l : List (String × Option String)) (x : String × Option String) :
    List (String × Option String) :=
  if x ∈ l then l else l ++ [x]

/-- One iteration of the scraping loops (`scraper/scrape.py` lines 138-184
for `scrape_continent`, 199-251 for `scrape_country`).  Returns the new
state and whether the loop `break`s (the "References" heading). -/
def scrapeStep (mode : SMode) (ns : List WNode) (refDict : List (String × Reference))
    (st : SState) : WNode → Except String (SState × Bool)
  | .heading t =>
    let st := { st with header := some t }
    let st := if st.cur.isSome then { st with count := 0, cur := none, curTwin := none } else st
    .ok (st, t == "References")
  | .wikilink title text =>
    match st.header with
    | none => .ok (st, false)
    | some hdr =>
      if st.count = 0 ∨ st.lastCount = (st.count : Int) then
        let cityName := text.getD title
        let skip := match mode with
          | .continent => false
          | .country _ => cityName = "town twinning" ∨ cityName = "European Union"
        if skip then .ok (st, false)
        else
          let cityCountry := match mode with
            | .continent => hdr
            | .country c => c
          let c : City := { name := cityName, country := cityCountry,
                            wiki_url := get_url title, wiki_text := title }
          let idx := st.heap.length
          .ok ({ st with
                  heap := st.heap ++ [c],
                  appended := st.appended ++ [idx],
                  cur := some idx, lastCount := -1, count := 0 }, false)
      else
        match nextNodeText ns (.wikilink title text) with
        | .error e => .error e
        | .ok twinCountry =>
          match st.cur with
          | none => .error "AttributeError"
          | some ci =>
            let tw : TwinCitiesAgreement :=
              { second_city := text.getD title, second_country := twinCountry,
                wiki_url := get_url title, wiki_text := title }
            let tIdx := ((st.heap.get? ci).map (fun c => c.twin_cities.length)).getD 0
            .ok ({ st with
                    heap := pushTwin st.heap ci tw,
                    curTwin := some (ci, tIdx), lastCount := (st.count : Int) }, false)
  | .tagRef attrs contents =>
    let guardNone := match mode with
      | .continent => false
      | .country _ => st.header.isNone
    if guardNone then .ok (st, false)
    else
      match parse_reference attrs contents refDict with
      | .error e => .error e
      | .ok r =>
        if st.count = 0 then
          match mode with
          | .country _ =>
            match r with
            | none => .ok (st, false)
            | some _ =>
              match st.cur with
              | none => .error "AttributeError"
              | some ci => .ok ({ st with heap := pushCityRef st.heap ci r }, false)
          | .continent =>
            match st.cur with
            | none => .error "AttributeError"
            | some ci => .ok ({ st with heap := pushCityRef st.heap ci r }, false)
        else
          match mode with
          | .country _ =>
            match r with
            | none => .ok (st, false)
            | some _ =>
              match st.curTwin with
              | none => .error "AttributeError"
              | some (ci, ti) => .ok ({ st with heap := pushTwinRef st.heap ci ti r }, false)
          | .continent =>
            match st.curTwin with
            | none => .error "AttributeError"
            | some (ci, ti) => .ok ({ st with heap := pushTwinRef st.heap ci ti r }, false)
  | .tagLi =>
    let st := { st with count := st.count + 1 }
    match st.cur with
    | some _ => .ok (st, false)
    | none =>
      let countryVal : Except String String := match mode with
        | .continent =>
          match st.header with
          | none => .error "TypeError"
          | some h => .ok h
        | .country c => .ok c
      match countryVal with
      | .error e => .error e
      | .ok cv =>
        let c : City := { name := cv, country := cv, wiki_url := get_url cv, wiki_text := cv }
        let idx := st.heap.length
        .ok ({ st with heap := st.heap ++ [c], cur := some idx }, false)
  | .templateN nm ps =>
    if nm = "main" then
      match ps.head? with
      | none => .error "IndexError"
      | some p => .ok ({ st with pending := pendingAdd st.pending (p.2, none) }, false)
    else .ok (st, false)
  | .tagOther _ => .ok (st, false)
  | .wtext _ => .ok (st, false)

/-- Run the scraping loop over the filtered node stream, stopping on
`break`. -/
def scrapeLoop (mode : SMode) (ns : List WNode) (refDict : List (String × Reference)) :
    List WNode → SState → Except String SState
  | [], st => .ok st
  | n :: rest, st =>
    match scrapeStep mode ns refDict st n with
    | .error e => .error e
    | .ok (st', true) => .ok st'
    | .ok (st', false) => scrapeLoop mode ns refDict rest st'

/-- Shared body of the two scraping entry points: build the
named-reference dictionary, run the loop, return the appended cities. -/
def runScrape (mode : SMode) (ns : List WNode) : Except String (List City) :=
  match build_named_reference_dictionary ns with
  | .error e => .error e
  | .ok refDict =>
    match scrapeLoop mode ns refDict (filteredNodes ns) initState with
    | .error e => .error e
    | .ok st => .ok (st.appended.filterMap (st.heap.get? ·))

/-- `Scraper.scrape_country` (`scraper/scrape.py` lines 186-251). -/
def scrape_country (ns : List WNode) (country : String) : Except String (List City) :=
  runScrape (.country country) ns

/-- `Scraper.scrape_continent` (`scraper/scrape.py` lines 127-184). -/
def scrape_continent (ns : List WNode) : Except String (List City) :=
  runScrape .continent ns

/-! ## `get_country_name` (`scraper/scrape.py` lines 297-306) -/

/-- `re.search(r"(?<=\sin\s).+", s)`: the text after the leftmost window
`whitespace, 'i', 'n', whitespace` that is followed by at least one
character.  (`.+` is greedy up to the end of the line; this embedding
takes everything to the end of the string, which is exact for inputs
without a newline.)  `none` models the `AttributeError` raised by
`None.group(0)` when the search fails. -/
def searchAfterIn : List Char → Option (List Char)
  | [] => none
  | a :: rest =>
    match rest with
    | b :: c :: d :: e :: rest' =>
      if a.isWhitespace && b == 'i' && c == 'n' && d.isWhitespace then some (e :: rest')
      else searchAfterIn rest
    | _ => none

/-- Python `str.replace("the ", "")`: remove every non-overlapping
occurrence, scanning left to right. -/
def removeThe : List Char → List Char
  | 't' :: 'h' :: 'e' :: ' ' :: rest => removeThe rest
  | c :: rest => c :: removeThe rest
  | [] => []

/-- `Scraper.get_country_name` (`scraper/scrape.py` lines 297-306). -/
def get_country_name (s : String) : Option String :=
  (searchAfterIn s.data).map (fun r => String.mk (removeThe r))

/-- The country name `Scraper.run` computes for a queued entry
(`scraper/scrape.py` line 117): display text preferred over raw title. -/
def country_name_for_entry (title : String) (shown : Option String) : Option String :=
  get_country_name (shown.getD title)

/-- Leftmost occurrence of the literal four characters `" in "`; returns
the (possibly empty) remainder after it.  Written from the claim's words
("taking the substring following \" in \""), for comparison with the
code's regex search. -/
def afterLiteralIn : List Char → Option (List Char)
  | [] => none
  | a :: rest =>
    match rest with
    | b :: c :: d :: rest' =>
      if a == ' ' && b == 'i' && c == 'n' && d == ' ' then some rest'
      else afterLiteralIn rest
    | _ => none

/-- Removal of only a *leading* `"the "`.  Written from the claim's words
("removing only a leading \"the \""), for comparison with the code. -/
def dropLeadingThe (cs : List Char) : List Char :=
  match cs with
  | 't' :: 'h' :: 'e' :: ' ' :: rest => rest
  | _ => cs

/-- The claimed country-name computation (claim C8 / spec section 4.3):
substring following `" in "`, with only a leading `"the "` removed. -/
def claimCountryName (title : String) (shown : Option String) : Option String :=
  (afterLiteralIn (shown.getD title).data).map (fun r => String.mk (dropLeadingThe r))

/-- The amended country-name computation: the nonempty substring
following the first `" in "`, with every occurrence of `"the "`
removed. -/
def amendedCountryName (title : String) (shown : Option String) : Option String :=
  match afterLiteralIn (shown.getD title).data with
  | some (c :: rest) => some (String.mk (removeThe (c :: rest)))
  | _ => none

/-! ## Graph store (`grapher/twin_cities_graph.py`)

An rdflib `Graph` is a set of (subject, predicate, object) triples; we
model it as an insertion-ordered duplicate-free list (CPython's in-memory
store iterates in insertion order).  `URIRef` / `BNode` / `Literal`
become the three constructors of `RNode`; `rdflib.Literal(x)` applied to
a Python value renders `None` as the string "None" (which the `_add_triple`
guard then filters out).  Predicates are modelled by distinct string
constants abbreviating the namespaced URIs. -/

/-- An RDF node: named resource, blank node, or literal. -/
inductive RNode where
  | uri (u : String)
  | blank (n : Nat)
  | lit (s : String)
deriving DecidableEq, Repr

/-- An RDF triple. -/
structure Triple where
  subj : RNode
  pred : String
  obj : RNode
deriving DecidableEq, Repr

def pType : String := "rdf:type"
def pLabel : String := "rdfs:label"
def pCountry : String := "tc:country"
def pWikiText : String := "tc:wikiText"
def pSourcePage : String := "tc:sourcePage"
def pSourceType : String := "tc:sourceType"
def pTwin : String := "tc:twin"
def pUrl : String := "tc:url"
def pWebsite : String := "tc:website"
def pPublisher : String := "tc:publisher"
def pLanguage : String := "tc:language"
def pAccessDate : String := "tc:accessDate"
def pDate : String := "tc:date"
def pCityPair : String := "tc:city_pair"
def pCity : String := "tc:city"
def pReference : String := "tc:reference"

def oCity : RNode := .uri "tc:City"
def oReference : RNode := .uri "tc:Reference"
def oCityPair : RNode := .uri "tc:CityPair"

/-- `rdflib.Literal(x)` for an optional string: `Literal(None)` has the
lexical form "None". -/
def pyStr : Option String → String
  | none => "None"
  | some s => s

/-- The `TwinCitiesGraph` object: the triple store plus the two Python
dicts `self.references` (dedup key → reference node) and
`self.city_pairs` ((city, twin) URIRef pair → pair node), and a counter
supplying fresh blank-node identities. -/
structure TCG where
  graph : List Triple
  references : List (String × RNode)
  cityPairs : List ((RNode × RNode) × RNode)
  nextB : Nat
deriving DecidableEq, Repr

/-- A freshly constructed `TwinCitiesGraph()`. -/
def TCG.empty : TCG := { graph := [], references := [], cityPairs := [], nextB := 0 }

/-- `TwinCitiesGraph._add_triple` (`grapher/twin_cities_graph.py` lines
87-91): skip a `Literal("None")` object, skip an already-present triple,
otherwise add. -/
def addTriple (g : TCG) (s : RNode) (p : String) (o : RNode) : TCG :=
  if o = RNode.lit "None" then g
  else if (⟨s, p, o⟩ : Triple) ∈ g.graph then g
  else { g with graph := g.graph ++ [⟨s, p, o⟩] }

/-- `graph.objects(s, p)`: the objects of all matching triples, in
insertion order. -/
def objectsOf (g : TCG) (s : RNode) (p : String) : List RNode :=
  (g.graph.filter (fun t => t.subj == s && t.pred == p)).map Triple.obj

/-- `graph.subjects(p, o)`. -/
def subjectsOf (g : TCG) (p : String) (o : RNode) : List RNode :=
  (g.graph.filter (fun t => t.pred == p && t.obj == o)).map Triple.subj

/-- `graph.value(s, p)`: any one object of a matching triple, or `None`. -/
def valueOf (g : TCG) (s : RNode) (p : String) : Option RNode :=
  (objectsOf g s p).head?

/-- `.toPython()` of a node, as a string. -/
def toPyStr : RNode → String
  | .uri u => u
  | .lit s => s
  | .blank n => "_:b" ++ toString n

/-- `TwinCitiesGraph._add_city` (`grapher/twin_cities_graph.py` lines
37-44). -/
def addCityNode (g : TCG) (url name country wikiText : String)
    (sourcePage sourceType : Option String) : TCG :=
  let u := RNode.uri url
  let g := addTriple g u pType oCity
  let g := addTriple g u pLabel (.lit name)
  let g := addTriple g u pCountry (.lit country)
  let g := addTriple g u pWikiText (.lit wikiText)
  let g := addTriple g u pSourcePage (.lit (pyStr sourcePage))
  addTriple g u pSourceType (.lit (pyStr sourceType))

/-- `TwinCitiesGraph._add_twin` (lines 46-51): upsert the twin as a city
node and link the pair in both directions. -/
def addTwinCity (g : TCG) (cityUrl : String) (tw : TwinCitiesAgreement) : TCG :=
  let g := addCityNode g tw.wiki_url tw.second_city tw.second_country tw.wiki_text none none
  let cu := RNode.uri cityUrl
  let tu := RNode.uri tw.wiki_url
  addTriple (addTriple g cu pTwin tu) tu pTwin cu

/-- `coalesce(reference.url, reference.website, reference.title,
reference.publisher, "unknown")` (lines 8-9 and 54). -/
def coalesceKey (r : Reference) : String :=
  match r.url with
  | some u => u
  | none =>
    match r.website with
    | some w => w
    | none =>
      match r.title with
      | some t => t
      | none =>
        match r.publisher with
        | some p => p
        | none => "unknown"

/-- The reference-node resolution step of `_add_reference` (lines 56-61):
reuse the node under the dedup key, or mint a fresh blank node carrying
its type and url triples. -/
def refLookup (g : TCG) (key : String) (r : Reference) : TCG × RNode :=
  match dictGet g.references key with
  | some ref => (g, ref)
  | none =>
    (addTriple (addTriple { g with nextB := g.nextB + 1 }
        (RNode.blank g.nextB) pType oReference)
      (RNode.blank g.nextB) pUrl (.lit (pyStr r.url)), RNode.blank g.nextB)

/-- The six field triples `_add_reference` always (re-)asserts
(lines 63-68). -/
def refFieldTriples (g : TCG) (ref : RNode) (r : Reference) : TCG :=
  addTriple (addTriple (addTriple (addTriple (addTriple (addTriple g
    ref pWebsite (.lit (pyStr r.website))) ref pLabel (.lit (pyStr r.title)))
    ref pPublisher (.lit (pyStr r.publisher))) ref pLanguage (.lit (pyStr r.language)))
    ref pAccessDate (.lit (pyStr r.access_date))) ref pDate (.lit (pyStr r.date))

/-- The city-pair resolution step of `_add_reference` (lines 70-78):
look the unordered pair up under both orientations, or mint a fresh pair
node. -/
def pairLookup (g : TCG) (cu tu : RNode) : TCG × RNode :=
  match dictGet g.cityPairs (cu, tu) with
  | some pr => (g, pr)
  | none =>
    match dictGet g.cityPairs (tu, cu) with
    | some pr => (g, pr)
    | none =>
      (addTriple (addTriple (addTriple { g with nextB := g.nextB + 1 }
          (RNode.blank g.nextB) pType oCityPair)
        (RNode.blank g.nextB) pCity cu) (RNode.blank g.nextB) pCity tu,
       RNode.blank g.nextB)

/-- The final dict writes of `_add_reference` (lines 84-85). -/
def updateDicts (g : TCG) (key : String) (ref cu tu pairN : RNode) : TCG :=
  { g with references := dictInsert g.references key ref,
           cityPairs := dictInsert g.cityPairs (cu, tu) pairN }

/-- `TwinCitiesGraph._add_reference` (lines 53-85) for a non-`None`
reference. -/
def addReferenceCore (g : TCG) (r : Reference) (cu tu : RNode) : TCG :=
  match refLookup g (coalesceKey r) r with
  | (g1, ref) =>
    match pairLookup (refFieldTriples g1 ref r) cu tu with
    | (g8, pairN) =>
      updateDicts
        (addTriple (addTriple (addTriple g8 ref pCityPair pairN) cu pReference ref)
          tu pReference ref)
        (coalesceKey r) ref cu tu pairN

/-- `_add_reference` on an optional reference: a `None` reference raises
`AttributeError` at `reference.url` before any mutation.  The second
component is the pending exception (`none` = no exception); an exception
aborts the enclosing `add_cities` call but keeps all mutations made so
far, as in Python. -/
def addReference (g : TCG) (r : Option Reference) (cu tu : RNode) : TCG × Option String :=
  match r with
  | none => (g, some "AttributeError")
  | some r => (addReferenceCore g r cu tu, none)

/-- A `for reference in rs: self._add_reference(reference, cu, tu)` loop,
stopping at the first exception. -/
def addRefList (g : TCG) (rs : List (Option Reference)) (cu tu : RNode) : TCG × Option String :=
  match rs with
  | [] => (g, none)
  | r :: rest =>
    match addReference g r cu tu with
    | (g', none) => addRefList g' rest cu tu
    | (g', some e) => (g', some e)

/-- The `for twin in city.twin_cities` loop of `add_cities` (lines 29-35):
link the twin, then attach the city's own references and the twin's
references, each scoped to this (city, twin) pair. -/
def addTwinLoop (g : TCG) (c : City) : List TwinCitiesAgreement → TCG × Option String
  | [] => (g, none)
  | tw :: rest =>
    match addRefList (addTwinCity g c.wiki_url tw) c.ref
        (RNode.uri c.wiki_url) (RNode.uri tw.wiki_url) with
    | (g1, some e) => (g1, some e)
    | (g1, none) =>
      match addRefList g1 tw.refs (RNode.uri c.wiki_url) (RNode.uri tw.wiki_url) with
      | (g2, some e) => (g2, some e)
      | (g2, none) => addTwinLoop g2 c rest

/-- One iteration of `add_cities` (lines 25-35). -/
def addOneCity (g : TCG) (c : City) : TCG × Option String :=
  let g := addCityNode g c.wiki_url c.name c.country c.wiki_text c.source_page (some c.source_type)
  addTwinLoop g c c.twin_cities

/-- `TwinCitiesGraph.add_cities` (lines 25-35). -/
def add_cities (g : TCG) (cs : List City) : TCG × Option String :=
  match cs with
  | [] => (g, none)
  | c :: rest =>
    match addOneCity g c with
    | (g', none) => add_cities g' rest
    | (g', some e) => (g', some e)

/-- One row of `get_cities`. -/
structure CityEntry where
  url : String
  name : Option String
  country : Option String
deriving DecidableEq, Repr

/-- The dictionary `get_cities` builds for one city node. -/
def mkCityEntry (g : TCG) (cu : RNode) : CityEntry :=
  { url := toPyStr cu,
    name := (valueOf g cu pLabel).map toPyStr,
    country := (valueOf g cu pCountry).map toPyStr }

/-- `TwinCitiesGraph.get_cities` (lines 93-106): all `City`-typed
subjects that have at least one `twin` object. -/
def get_cities (g : TCG) : List CityEntry :=
  (subjectsOf g pType oCity).filterMap fun cu =>
    if valueOf g cu pTwin = none then none
    else some (mkCityEntry g cu)

/-- One row of `get_twins`. -/
structure TwinEntry where
  url : String
  name : Option String
  country : Option String
  sourcePage : Option String
  sourceType : Option String
  wikiText : Option String
deriving DecidableEq, Repr

/-- The dictionary `get_twins` builds for one twin node. -/
def mkTwinEntry (g : TCG) (tu : RNode) : TwinEntry :=
  { url := toPyStr tu,
    name := (valueOf g tu pLabel).map toPyStr,
    country := (valueOf g tu pCountry).map toPyStr,
    sourcePage := (valueOf g tu pSourcePage).map toPyStr,
    sourceType := (valueOf g tu pSourceType).map toPyStr,
    wikiText := (valueOf g tu pWikiText).map toPyStr }

/-- `TwinCitiesGraph.get_twins` (lines 108-123). -/
def get_twins (g : TCG) (cityUrl : String) : List TwinEntry :=
  (objectsOf g (.uri cityUrl) pTwin).map (mkTwinEntry g)

/-- One row of `get_references`.  `url` is a plain string: the code
dereferences it unconditionally (`url.toPython()`), raising
`AttributeError` when it is missing.  `accessDate` is the space-join of
all access-date objects, so always a string. -/
structure RefEntry where
  name : Option String
  url : String
  website : Option String
  publisher : Option String
  language : Option String
  accessDate : String
  date : Option String
deriving DecidableEq, Repr

/-- `TwinCitiesGraph._is_reference_relevant` (lines 156-162). -/
def is_reference_relevant (g : TCG) (rn cu tu : RNode) : Bool :=
  (objectsOf g rn pCityPair).any fun pr =>
    (objectsOf g pr pCity).contains cu && (objectsOf g pr pCity).contains tu

/-- The dictionary `get_references` builds for one reference node (given
the already-converted url string). -/
def mkRefEntry (g : TCG) (rn : RNode) (u : String) : RefEntry :=
  { name := (valueOf g rn pLabel).map toPyStr,
    url := u,
    website := (valueOf g rn pWebsite).map toPyStr,
    publisher := (valueOf g rn pPublisher).map toPyStr,
    language := (valueOf g rn pLanguage).map toPyStr,
    accessDate := String.intercalate " " ((objectsOf g rn pAccessDate).map toPyStr),
    date := (valueOf g rn pDate).map toPyStr }

/-- The loop of `get_references` (lines 129-153): drop irrelevant
candidates, raise `AttributeError` when a relevant reference has no url
triple, deduplicate by url within the result. -/
def getRefsAux (g : TCG) (cu tu : RNode) :
    List RNode → List RefEntry → Except String (List RefEntry)
  | [], acc => .ok acc
  | rn :: rest, acc =>
    if is_reference_relevant g rn cu tu then
      match valueOf g rn pUrl with
      | none => .error "AttributeError"
      | some urlN =>
        if (acc.map RefEntry.url).contains (toPyStr urlN) then getRefsAux g cu tu rest acc
        else getRefsAux g cu tu rest (acc ++ [mkRefEntry g rn (toPyStr urlN)])
    else getRefsAux g cu tu rest acc

/-- `TwinCitiesGraph.get_references` (lines 125-154). -/
def get_references (g : TCG) (cityUrl twinUrl : String) : Except String (List RefEntry) :=
  getRefsAux g (RNode.uri cityUrl) (RNode.uri twinUrl)
    (objectsOf g (RNode.uri cityUrl) pReference ++
      objectsOf g (RNode.uri twinUrl) pReference) []

/-- Every reference attached to the city — directly or on one of its
twins — is an actual `Reference`, not `None`. -/
def refsAllSome (c : City) : Prop :=
  (∀ r ∈ c.ref, r.isSome = true) ∧
    ∀ tw ∈ c.twin_cities, ∀ r ∈ tw.refs, r.isSome = true

/-! ## Concrete scenario inputs -/

/-- The node stream of the minimal synthetic country page: parsing
`'''[[Radom]]'''<ref>{{cite web|url=http://x|title=T}}</ref>` followed by
`*[[Kielce]], Poland` (bold quotes stay text under `skip_style_tags`, the
list marker `*` parses as an `li` tag, the trailing `, Poland` is a text
node). -/
def c2PageMinimal : List WNode :=
  [ .wtext "'''", .wikilink "Radom" none, .wtext "'''",
    .tagRef [] [.template "cite web" [("url", "http://x"), ("title", "T")]],
    .wtext "\n", .tagLi, .wikilink "Kielce" none, .wtext ", Poland\n" ]

/-- The same page with a section heading in front of the city entry. -/
def c2PageWithHeading : List WNode := WNode.heading "H" :: c2PageMinimal

/-- The city record claim C2 expects the scrape to produce. -/
def c2RadomCity : City :=
  { name := "Radom", country := "Poland",
    wiki_url := "https://en.wikipedia.org/wiki/Radom", wiki_text := "Radom",
    source_page := none, source_type := "country",
    ref := [some { url := some "http://x", title := some "T" }],
    twin_cities := [{ second_city := "Kielce", second_country := "Poland",
                      wiki_url := "https://en.wikipedia.org/wiki/Kielce",
                      wiki_text := "Kielce", refs := [] }] }

/-- A continent page whose city carries a named citation that is defined
nowhere: `parse_reference` resolves it to `None`, and `scrape_continent`
appends that `None` to the city's reference list. -/
def c3ContinentPage : List WNode :=
  [ .heading "France", .wikilink "Lyon" none, .tagRef [("name", "undef")] [] ]

/-- A country page carrying one directly-given citation and one
unresolvable named citation: `scrape_country` keeps the former and skips
the `None` produced for the latter. -/
def c3CountryPage : List WNode :=
  [ .heading "HQ", .wikilink "Lyon" none,
    .tagRef [] [.template "cite web" [("url", "http://c3")]],
    .tagRef [("name", "nope")] [] ]

/-- The city `scrape_country` extracts from `c3CountryPage`. -/
def c3LyonCity : City :=
  { name := "Lyon", country := "Q",
    wiki_url := "https://en.wikipedia.org/wiki/Lyon", wiki_text := "Lyon",
    ref := [some { url := some "http://c3" }], twin_cities := [] }

/-- A city with two twins; a reference is attached only to the pair
(A6, B6), and the pair (A6, C6) carries none. -/
def c6City : City :=
  { name := "A6", country := "X", wiki_url := "https://a6", wiki_text := "t",
    twin_cities := [
      { second_city := "B6", second_country := "Y", wiki_url := "https://b6",
        wiki_text := "u", refs := [some { url := some "http://r6" }] },
      { second_city := "C6", second_country := "Z", wiki_url := "https://c6",
        wiki_text := "v", refs := [] } ] }

/-- A city with one twin; the twin carries the given reference list.
Used to build the two-city ingestion scenarios of claims C5 and C10. -/
def pairCity (curl turl : String) (refs : List (Option Reference)) : City :=
  { name := "CityA", country := "X", wiki_url := curl, wiki_text := "ta",
    twin_cities := [{ second_city := "CityB", second_country := "Y",
                      wiki_url := turl, wiki_text := "tb", refs := refs }] }

/-- A reference that has no url (its dedup identity falls back to the
website field). -/
def refNoUrl : Reference := { website := some "w", title := some "T10" }

/-- The stored reference nodes: triples typing a node as a Reference. -/
def refTypeTriples (g : TCG) : List Triple :=
  g.graph.filter (fun tr => tr.pred == pType && tr.obj == oReference)

/-- Reference data given by url, title and publisher. -/
def ref5 (u : String) (t p : Option String) : Reference :=
  { url := some u, title := t, publisher := p }

/-- The C5 scenario: one city pair whose twin carries the same reference
data twice. -/
def pairCity5 (A B u : String) (t p : Option String) : City :=
  pairCity A B [some (ref5 u t p), some (ref5 u t p)]

/-- Url-less reference data (identical url, title and publisher on both
insertions) for the C5 counterexample. -/
def refNoUrl5 : Reference :=
  { website := some "w5", title := some "T5", publisher := some "P5" }

/-- The store state of the C5 scenario after `_add_city` and `_add_twin`,
before any reference is attached. -/
def c5Base (A B u : String) (t p : Option String) : TCG :=
  addTwinCity (addCityNode TCG.empty A "CityA" "X" "ta" none (some "country")) A
    { second_city := "CityB", second_country := "Y", wiki_url := B, wiki_text := "tb",
      refs := [some (ref5 u t p), some (ref5 u t p)] }

/-- The store after the reference-node resolution step of the first
`_add_reference` call of the C5 scenario (a fresh node, blank 0). -/
def c5Ga (A B u : String) (t p : Option String) : TCG :=
  addTriple (addTriple { c5Base A B u t p with nextB := 1 }
      (RNode.blank 0) pType oReference)
    (RNode.blank 0) pUrl (.lit u)

/-- The store after the city-pair resolution step of the first
`_add_reference` call of the C5 scenario (a fresh pair node, blank 1). -/
def c5Gc (A B u : String) (t p : Option String) : TCG :=
  addTriple (addTriple (addTriple
      { refFieldTriples (c5Ga A B u t p) (RNode.blank 0) (ref5 u t p) with nextB := 2 }
      (RNode.blank 1) pType oCityPair)
    (RNode.blank 1) pCity (RNode.uri A)) (RNode.blank 1) pCity (RNode.uri B)

/-- The full store of the C5 scenario. -/
def c5Final (A B u : String) (t p : Option String) : TCG :=
  updateDicts (addTriple (addTriple (addTriple (c5Gc A B u t p) (RNode.blank 0) pCityPair
      (RNode.blank 1)) (RNode.uri A) pReference (RNode.blank 0))
    (RNode.uri B) pReference (RNode.blank 0)) u (RNode.blank 0)
    (RNode.uri A) (RNode.uri B) (RNode.blank 1)

/-! ## Theorems -/

theorem align_filterMap_left (L R : List Rec) :
    (align L R).filterMap AlignEntry.wikidata = L := by
  induction L, R using align.induct with
  | case1 => simp [align]
  | case2 r rs ih => simpa [align] using ih
  | case3 l ls ih => simpa [align] using ih
  | case4 l ls r rs h ih => simpa [align, h] using ih
  | case5 l ls r rs h h' ih => simpa [align, h, h'] using ih
  | case6 l ls r rs h h' ih => simpa [align, h, h'] using ih

theorem align_filterMap_right (L R : List Rec) :
    (align L R).filterMap AlignEntry.wikipedia = R := by
  induction L, R using align.induct with
  | case1 => simp [align]
  | case2 r rs ih => simpa [align] using ih
  | case3 l ls ih => simpa [align] using ih
  | case4 l ls r rs h ih => simpa [align, h] using ih
  | case5 l ls r rs h h' ih => simpa [align, h, h'] using ih
  | case6 l ls r rs h h' ih => simpa [align, h, h'] using ih

/-- C2, counterexample: on the truly minimal page — the given wikitext and
nothing else — `scrape_country` returns no cities at all (every node is
skipped while `header` is still `None`), not the claimed single city
"Radom". -/
theorem c2_counterexample :
    scrape_country c2PageMinimal "Poland" = Except.ok ([] : List City) ∧
      (Except.ok ([] : List City) : Except String (List City)) ≠
        Except.ok [c2RadomCity] := by
  constructor
  · rfl
  · simp

/-- C2 (amended): on the minimal synthetic country page whose entries are
preceded by a section heading, `scrape_country` with the page's country
supplied returns exactly one City "Radom" carrying one
Reference(url="http://x", title="T") and one
TwinCitiesAgreement(second_city="Kielce", second_country="Poland"). -/
theorem c2_scrape_radom :
    scrape_country c2PageWithHeading "Poland" = Except.ok [c2RadomCity] := by
  rfl

/-- Under the "all whitespace is a plain space" hypothesis the regex
window scan of `get_country_name` coincides with the literal `" in "`
scan, up to the regex's requirement that at least one character follow
the window. -/
theorem searchAfterIn_eq_afterLiteralIn (l : List Char)
    (h : ∀ c ∈ l, c.isWhitespace → c = ' ') :
    searchAfterIn l =
      (afterLiteralIn l).bind (fun r => if r = [] then none else some r) := by
  induction l with
  | nil => rfl
  | cons a rest ih =>
    have hrest : ∀ c ∈ rest, c.isWhitespace → c = ' ' := fun c hc hw =>
      h c (List.mem_cons_of_mem a hc) hw
    match rest with
    | [] => rfl
    | [b] => rfl
    | [b, c] => rfl
    | b :: c :: d :: rest2 =>
      by_cases hw : (a.isWhitespace && b == 'i' && c == 'n' && d.isWhitespace) = true
      · have hlit : (a == ' ' && b == 'i' && c == 'n' && d == ' ') = true := by
          simp only [Bool.and_eq_true, beq_iff_eq] at hw ⊢
          refine ⟨⟨⟨h a (by simp) hw.1.1.1, hw.1.1.2⟩, hw.1.2⟩, h d (by simp) hw.2⟩
        cases rest2 with
        | nil =>
          show none = (afterLiteralIn (a :: b :: c :: d :: [])).bind _
          rw [show afterLiteralIn (a :: b :: c :: d :: []) = some [] by
            simp [afterLiteralIn, hlit]]
          rfl
        | cons e rest3 =>
          show (if (a.isWhitespace && b == 'i' && c == 'n' && d.isWhitespace) = true
              then some (e :: rest3) else searchAfterIn (b :: c :: d :: e :: rest3)) =
            (afterLiteralIn (a :: b :: c :: d :: e :: rest3)).bind _
          rw [if_pos hw, show afterLiteralIn (a :: b :: c :: d :: e :: rest3) =
              some (e :: rest3) by simp [afterLiteralIn, hlit]]
          rfl
      · have hlit : ¬(a == ' ' && b == 'i' && c == 'n' && d == ' ') = true := by
          intro hx
          simp only [Bool.and_eq_true, beq_iff_eq] at hx
          refine hw (by simp [hx.1.1.1, hx.1.1.2, hx.1.2, hx.2])
        have hal : afterLiteralIn (a :: b :: c :: d :: rest2) =
            afterLiteralIn (b :: c :: d :: rest2) := by
          simp only [afterLiteralIn]
          rw [if_neg hlit]
        cases rest2 with
        | nil =>
          show none = (afterLiteralIn (a :: b :: c :: d :: [])).bind _
          rw [hal, show afterLiteralIn (b :: c :: d :: []) = none by rfl]
          rfl
        | cons e rest3 =>
          show (if (a.isWhitespace && b == 'i' && c == 'n' && d.isWhitespace) = true
              then some (e :: rest3) else searchAfterIn (b :: c :: d :: e :: rest3)) =
            (afterLiteralIn (a :: b :: c :: d :: e :: rest3)).bind _
          rw [if_neg hw, hal]
          exact ih hrest

/-- C8, counterexample: for the queued entry titled
"List of twin towns in the land of the free" the code computes
"land of free" — `str.replace` removes *every* occurrence of "the ",
not only a leading one as the claim states. -/
theorem c8_counterexample :
    country_name_for_entry "List of twin towns in the land of the free" none =
        some "land of free" ∧
      claimCountryName "List of twin towns in the land of the free" none =
        some "land of the free" ∧
      some "land of free" ≠ some "land of the free" := by
  refine ⟨by rfl, by rfl, by decide⟩

/-- C8 (amended): for every queued crawl entry whose relevant text uses
only plain spaces as whitespace, the country name used for scraping is
computed from the display text when present, otherwise from the raw
title, by taking the nonempty substring following the first " in " and
removing *every* occurrence of "the ". -/
theorem c8_country_name (title : String) (shown : Option String)
    (h : ∀ c ∈ (shown.getD title).data, c.isWhitespace → c = ' ') :
    country_name_for_entry title shown = amendedCountryName title shown := by
  unfold country_name_for_entry get_country_name amendedCountryName
  rw [searchAfterIn_eq_afterLiteralIn _ h]
  cases hal : afterLiteralIn (shown.getD title).data with
  | none => simp
  | some r =>
    cases r with
    | nil => simp
    | cons c rest => simp

/-- Witness for `c8_country_name` at a concrete entry. -/
theorem c8_country_name_witness :
    country_name_for_entry "List of twin towns in the Netherlands" none =
      amendedCountryName "List of twin towns in the Netherlands" none :=
  c8_country_name "List of twin towns in the Netherlands" none (by decide)

/-- C9: a citation fragment that has attributes but none named "name"
(here: only a `group` attribute) makes `parse_reference` raise
`UnboundLocalError` instead of returning a Reference or `None`, whatever
the fragment's contents and whatever the named-reference table. -/
theorem c9_parse_reference_unbound_local
    (contents : List CNode) (refDict : List (String × Reference)) :
    parse_reference [("group", "g")] contents refDict =
      Except.error "UnboundLocalError" := by
  rfl

/-- C10: ingesting a reference whose url is `None` (dedup identity falls
back to its website) for the pair (A, B) stores no url triple, so
`get_references` on that pair raises `AttributeError` instead of
returning a result. -/
theorem c10_get_references_crash :
    get_references (add_cities TCG.empty
        [pairCity "https://a10" "https://b10" [some refNoUrl]]).1
      "https://a10" "https://b10" = Except.error "AttributeError" := by
  rfl

theorem mem_listModify {α : Type} {l : List α} {i : Nat} {f : α → α} {x : α}
    (hx : x ∈ listModify l i f) : x ∈ l ∨ ∃ a ∈ l, x = f a := by
  unfold listModify at hx
  cases hget : l.get? i with
  | none => rw [hget] at hx; exact Or.inl hx
  | some a =>
    rw [hget] at hx
    rcases List.mem_or_eq_of_mem_set hx with h | h
    · exact Or.inl h
    · exact Or.inr ⟨a, List.get?_mem hget, h⟩

theorem heapInv_append {heap : List City} {c : City}
    (hinv : ∀ x ∈ heap, refsAllSome x) (hc : refsAllSome c) :
    ∀ x ∈ heap ++ [c], refsAllSome x := by
  intro x hx
  rcases List.mem_append.1 hx with h | h
  · exact hinv x h
  · rw [List.mem_singleton.1 h]; exact hc

theorem heapInv_pushCityRef {heap : List City} {ci : Nat} {r : Option Reference}
    (hinv : ∀ x ∈ heap, refsAllSome x) (hr : r.isSome = true) :
    ∀ x ∈ pushCityRef heap ci r, refsAllSome x := by
  intro x hx
  rcases mem_listModify hx with h | ⟨a, ha, rfl⟩
  · exact hinv x h
  · obtain ⟨h1, h2⟩ := hinv a ha
    refine ⟨?_, h2⟩
    intro r' hr'
    rcases List.mem_append.1 hr' with h | h
    · exact h1 r' h
    · rw [List.mem_singleton.1 h]; exact hr

theorem heapInv_pushTwin {heap : List City} {ci : Nat} {tw : TwinCitiesAgreement}
    (hinv : ∀ x ∈ heap, refsAllSome x) (htw : ∀ r ∈ tw.refs, r.isSome = true) :
    ∀ x ∈ pushTwin heap ci tw, refsAllSome x := by
  intro x hx
  rcases mem_listModify hx with h | ⟨a, ha, rfl⟩
  · exact hinv x h
  · obtain ⟨h1, h2⟩ := hinv a ha
    refine ⟨h1, ?_⟩
    intro tw' htw' r hr
    rcases List.mem_append.1 htw' with h | h
    · exact h2 tw' h r hr
    · rw [List.mem_singleton.1 h] at hr; exact htw r hr

theorem heapInv_pushTwinRef {heap : List City} {ci ti : Nat} {r : Option Reference}
    (hinv : ∀ x ∈ heap, refsAllSome x) (hr : r.isSome = true) :
    ∀ x ∈ pushTwinRef heap ci ti r, refsAllSome x := by
  intro x hx
  rcases mem_listModify hx with h | ⟨a, ha, rfl⟩
  · exact hinv x h
  · obtain ⟨h1, h2⟩ := hinv a ha
    refine ⟨h1, ?_⟩
    intro tw' htw' r' hr'
    rcases mem_listModify htw' with h | ⟨t, ht, rfl⟩
    · exact h2 tw' h r' hr'
    · rcases List.mem_append.1 hr' with h | h
      · exact h2 t ht r' h
      · rw [List.mem_singleton.1 h]; exact hr

/-- In country mode every reference the scraping step stores is a real
`Reference`: the `None` results of `parse_reference` are skipped. -/
theorem scrapeStep_country_inv {cn : String} {ns : List WNode}
    {refDict : List (String × Reference)} {st : SState} {n : WNode}
    {st' : SState} {br : Bool}
    (hstep : scrapeStep (SMode.country cn) ns refDict st n = .ok (st', br))
    (hinv : ∀ c ∈ st.heap, refsAllSome c) :
    ∀ c ∈ st'.heap, refsAllSome c := by
  cases n with
  | heading t =>
    simp only [scrapeStep] at hstep
    split at hstep <;>
      (simp only [Except.ok.injEq, Prod.mk.injEq] at hstep
       obtain ⟨h1, _⟩ := hstep
       rw [← h1]
       simpa using hinv)
  | wikilink title text =>
    simp only [scrapeStep] at hstep
    cases hh : st.header with
    | none =>
      rw [hh] at hstep
      simp only [Except.ok.injEq, Prod.mk.injEq] at hstep
      obtain ⟨h1, _⟩ := hstep
      rw [← h1]; exact hinv
    | some hdr =>
      rw [hh] at hstep
      by_cases hcount : (st.count = 0 ∨ st.lastCount = (st.count : Int))
      · rw [if_pos hcount] at hstep
        simp only at hstep
        split at hstep
        · simp only [Except.ok.injEq, Prod.mk.injEq] at hstep
          obtain ⟨h1, _⟩ := hstep
          rw [← h1]; exact hinv
        · simp only [Except.ok.injEq, Prod.mk.injEq] at hstep
          obtain ⟨h1, _⟩ := hstep
          rw [← h1]
          exact heapInv_append hinv ⟨by simp, by simp⟩
      · rw [if_neg hcount] at hstep
        cases hnext : nextNodeText ns (.wikilink title text) with
        | error e => rw [hnext] at hstep; exact absurd hstep (by simp)
        | ok twinCountry =>
          rw [hnext] at hstep
          cases hcur : st.cur with
          | none => rw [hcur] at hstep; exact absurd hstep (by simp)
          | some ci =>
            rw [hcur] at hstep
            simp only [Except.ok.injEq, Prod.mk.injEq] at hstep
            obtain ⟨h1, _⟩ := hstep
            rw [← h1]
            exact heapInv_pushTwin hinv (by simp)
  | tagRef attrs contents =>
    simp only [scrapeStep] at hstep
    split at hstep
    · simp only [Except.ok.injEq, Prod.mk.injEq] at hstep
      obtain ⟨h1, _⟩ := hstep
      rw [← h1]; exact hinv
    · cases hp : parse_reference attrs contents refDict with
      | error e => rw [hp] at hstep; exact absurd hstep (by simp)
      | ok r =>
        rw [hp] at hstep
        simp only at hstep
        by_cases hc0 : st.count = 0
        · rw [if_pos hc0] at hstep
          cases r with
          | none =>
            simp only [Except.ok.injEq, Prod.mk.injEq] at hstep
            obtain ⟨h1, _⟩ := hstep
            rw [← h1]; exact hinv
          | some v =>
            cases hcur : st.cur with
            | none => rw [hcur] at hstep; exact absurd hstep (by simp)
            | some ci =>
              rw [hcur] at hstep
              simp only [Except.ok.injEq, Prod.mk.injEq] at hstep
              obtain ⟨h1, _⟩ := hstep
              rw [← h1]
              exact heapInv_pushCityRef hinv (by simp)
        · rw [if_neg hc0] at hstep
          cases r with
          | none =>
            simp only [Except.ok.injEq, Prod.mk.injEq] at hstep
            obtain ⟨h1, _⟩ := hstep
            rw [← h1]; exact hinv
          | some v =>
            cases hcur : st.curTwin with
            | none => rw [hcur] at hstep; exact absurd hstep (by simp)
            | some p =>
              rw [hcur] at hstep
              obtain ⟨ci, ti⟩ := p
              simp only [Except.ok.injEq, Prod.mk.injEq] at hstep
              obtain ⟨h1, _⟩ := hstep
              rw [← h1]
              exact heapInv_pushTwinRef hinv (by simp)
  | tagLi =>
    simp only [scrapeStep] at hstep
    cases hcur : st.cur with
    | some ci =>
      rw [hcur] at hstep
      simp only [Except.ok.injEq, Prod.mk.injEq] at hstep
      obtain ⟨h1, _⟩ := hstep
      rw [← h1]; simpa using hinv
    | none =>
      rw [hcur] at hstep
      simp only [Except.ok.injEq, Prod.mk.injEq] at hstep
      obtain ⟨h1, _⟩ := hstep
      rw [← h1]
      exact heapInv_append (by simpa using hinv) ⟨by simp, by simp⟩
  | templateN nm ps =>
    simp only [scrapeStep] at hstep
    split at hstep
    · cases hh : ps.head? with
      | none => rw [hh] at hstep; exact absurd hstep (by simp)
      | some p =>
        rw [hh] at hstep
        simp only [Except.ok.injEq, Prod.mk.injEq] at hstep
        obtain ⟨h1, _⟩ := hstep
        rw [← h1]; exact hinv
    · simp only [Except.ok.injEq, Prod.mk.injEq] at hstep
      obtain ⟨h1, _⟩ := hstep
      rw [← h1]; exact hinv
  | tagOther t =>
    simp only [scrapeStep] at hstep
    simp only [Except.ok.injEq, Prod.mk.injEq] at hstep
    obtain ⟨h1, _⟩ := hstep
    rw [← h1]; exact hinv
  | wtext s =>
    simp only [scrapeStep] at hstep
    simp only [Except.ok.injEq, Prod.mk.injEq] at hstep
    obtain ⟨h1, _⟩ := hstep
    rw [← h1]; exact hinv

theorem scrapeLoop_country_inv {cn : String} {ns : List WNode}
    {refDict : List (String × Reference)} :
    ∀ (nodes : List WNode) (st st' : SState),
      scrapeLoop (SMode.country cn) ns refDict nodes st = .ok st' →
      (∀ c ∈ st.heap, refsAllSome c) → ∀ c ∈ st'.heap, refsAllSome c := by
  intro nodes
  induction nodes with
  | nil =>
    intro st st' h hinv
    unfold scrapeLoop at h
    simp only [Except.ok.injEq] at h
    rw [← h]; exact hinv
  | cons n rest ih =>
    intro st st' h hinv
    unfold scrapeLoop at h
    cases hs : scrapeStep (SMode.country cn) ns refDict st n with
    | error e => rw [hs] at h; exact absurd h (by simp)
    | ok p =>
      rw [hs] at h
      obtain ⟨st1, b⟩ := p
      cases b with
      | true =>
        simp only [Except.ok.injEq] at h
        rw [← h]
        exact scrapeStep_country_inv hs hinv
      | false =>
        exact ih st1 st' h (scrapeStep_country_inv hs hinv)

/-- Every city `scrape_country` returns has only non-`None` references,
on the city itself and on each of its twins. -/
theorem scrape_country_refs_some {ns : List WNode} {country : String}
    {cities : List City} (h : scrape_country ns country = .ok cities) :
    ∀ c ∈ cities, refsAllSome c := by
  unfold scrape_country runScrape at h
  cases hd : build_named_reference_dictionary ns with
  | error e => rw [hd] at h; exact absurd h (by simp)
  | ok refDict =>
    rw [hd] at h
    simp only at h
    cases hl : scrapeLoop (SMode.country country) ns refDict (filteredNodes ns) initState with
    | error e => rw [hl] at h; exact absurd h (by simp)
    | ok st =>
      rw [hl] at h
      simp only [Except.ok.injEq] at h
      intro c hc
      rw [← h] at hc
      obtain ⟨i, _, hget⟩ := List.mem_filterMap.1 hc
      exact scrapeLoop_country_inv (filteredNodes ns) initState st hl
        (by intro x hx; exact absurd hx (by simp [initState])) c (List.get?_mem hget)

/-- C3, counterexample: `scrape_continent` (unlike `scrape_country`)
appends the `None` produced for an unresolvable named reference straight
onto the city's reference list, so `City.ref` can contain `None`. -/
theorem c3_counterexample :
    scrape_continent c3ContinentPage =
      Except.ok [{ name := "Lyon", country := "France",
                   wiki_url := "https://en.wikipedia.org/wiki/Lyon",
                   wiki_text := "Lyon", source_page := none,
                   source_type := "country", ref := [none],
                   twin_cities := [] }] := by
  rfl

/-- C3 (amended): a citation fragment whose name attribute is not a key
of the named-reference table makes `parse_reference` return `None`
without raising; in `scrape_country` such a `None` is never attached, so
every element of `City.ref` and of every twin's `refs` is a non-`None`
Reference (`scrape_continent`, by contrast, appends the `None`). -/
theorem c3_soft_fail :
    (∀ (attrs : List (String × String)) (contents : List CNode)
        (refDict : List (String × Reference)) (nm : String),
        lastNameAttr attrs = some nm → dictGet refDict nm = none →
        parse_reference attrs contents refDict = .ok none) ∧
      ∀ (ns : List WNode) (country : String) (cities : List City),
        scrape_country ns country = .ok cities →
        ∀ c ∈ cities, (∀ r ∈ c.ref, r.isSome = true) ∧
          ∀ tw ∈ c.twin_cities, ∀ r ∈ tw.refs, r.isSome = true := by
  constructor
  · intro attrs contents refDict nm hname hdict
    cases attrs with
    | nil => exact absurd hname (by simp [lastNameAttr])
    | cons a rest =>
      unfold parse_reference
      rw [if_neg (by simp)]
      rw [hname]
      show Except.ok (dictGet refDict nm) = Except.ok none
      rw [hdict]
  · intro ns country cities h c hc
    exact scrape_country_refs_some h c hc

/-- Witness for `c3_soft_fail`: the unresolvable named reference
`[("name", "zz")]` over an empty table resolves to `None`, and the
reference `scrape_country` keeps from `c3CountryPage` is non-`None`. -/
theorem c3_soft_fail_witness :
    parse_reference [("name", "zz")] [] [] = Except.ok none ∧
      (some { url := some "http://c3" } : Option Reference).isSome = true :=
  ⟨c3_soft_fail.1 [("name", "zz")] [] [] "zz" rfl rfl,
   (c3_soft_fail.2 c3CountryPage "Q" [c3LyonCity] (by rfl) c3LyonCity (by simp)).1
     (some { url := some "http://c3" }) (by simp [c3LyonCity])⟩

/-! ### Graph-store lemmas -/

theorem mem_addTriple_graph {g : TCG} {t : Triple} {s : RNode} {p : String} {o : RNode}
    (ht : t ∈ g.graph) : t ∈ (addTriple g s p o).graph := by
  unfold addTriple
  split
  · exact ht
  · split
    · exact ht
    · exact List.mem_append_left _ ht

theorem self_mem_addTriple {g : TCG} {s : RNode} {p : String} {o : RNode}
    (h : o ≠ RNode.lit "None") : (⟨s, p, o⟩ : Triple) ∈ (addTriple g s p o).graph := by
  unfold addTriple
  rw [if_neg h]
  split
  · assumption
  · exact List.mem_append_right _ (by simp)

theorem mem_addTriple_iff {g : TCG} {t : Triple} {s : RNode} {p : String} {o : RNode} :
    t ∈ (addTriple g s p o).graph ↔
      t ∈ g.graph ∨ (o ≠ RNode.lit "None" ∧ t = ⟨s, p, o⟩) := by
  unfold addTriple
  by_cases ho : o = RNode.lit "None"
  · rw [if_pos ho]
    simp [ho]
  · rw [if_neg ho]
    split
    · constructor
      · exact fun h => Or.inl h
      · rintro (h | ⟨-, rfl⟩)
        · exact h
        · assumption
    · simp only [List.mem_append, List.mem_singleton]
      tauto

theorem mem_objectsOf {g : TCG} {s : RNode} {p : String} {o : RNode} :
    o ∈ objectsOf g s p ↔ (⟨s, p, o⟩ : Triple) ∈ g.graph := by
  unfold objectsOf
  simp only [List.mem_map, List.mem_filter, Bool.and_eq_true, beq_iff_eq]
  constructor
  · rintro ⟨t, ⟨hmem, hs, hp⟩, hobj⟩
    obtain ⟨ts, tp, tob⟩ := t
    simp only at hs hp hobj
    rw [← hs, ← hp, ← hobj]
    exact hmem
  · intro h
    exact ⟨⟨s, p, o⟩, ⟨h, rfl, rfl⟩, rfl⟩

theorem mem_addCityNode_graph {g : TCG} {t : Triple} {url name country wikiText : String}
    {sourcePage sourceType : Option String} (ht : t ∈ g.graph) :
    t ∈ (addCityNode g url name country wikiText sourcePage sourceType).graph := by
  unfold addCityNode
  exact mem_addTriple_graph (mem_addTriple_graph (mem_addTriple_graph
    (mem_addTriple_graph (mem_addTriple_graph (mem_addTriple_graph ht)))))

theorem mem_addTwinCity_graph {g : TCG} {t : Triple} {cityUrl : String}
    {tw : TwinCitiesAgreement} (ht : t ∈ g.graph) :
    t ∈ (addTwinCity g cityUrl tw).graph := by
  unfold addTwinCity
  exact mem_addTriple_graph (mem_addTriple_graph (mem_addCityNode_graph ht))

theorem mem_refLookup_graph {g : TCG} {t : Triple} {key : String} {r : Reference}
    (ht : t ∈ g.graph) : t ∈ (refLookup g key r).1.graph := by
  unfold refLookup
  split
  · exact ht
  · exact mem_addTriple_graph (mem_addTriple_graph ht)

theorem mem_refFieldTriples_graph {g : TCG} {t : Triple} {ref : RNode} {r : Reference}
    (ht : t ∈ g.graph) : t ∈ (refFieldTriples g ref r).graph := by
  unfold refFieldTriples
  exact mem_addTriple_graph (mem_addTriple_graph (mem_addTriple_graph
    (mem_addTriple_graph (mem_addTriple_graph (mem_addTriple_graph ht)))))

theorem mem_pairLookup_graph {g : TCG} {t : Triple} {cu tu : RNode}
    (ht : t ∈ g.graph) : t ∈ (pairLookup g cu tu).1.graph := by
  unfold pairLookup
  split
  · exact ht
  · split
    · exact ht
    · exact mem_addTriple_graph (mem_addTriple_graph (mem_addTriple_graph ht))

theorem updateDicts_graph (g : TCG) (key : String) (ref cu tu pairN : RNode) :
    (updateDicts g key ref cu tu pairN).graph = g.graph := rfl

theorem mem_addReferenceCore_graph {g : TCG} {t : Triple} {r : Reference} {cu tu : RNode}
    (ht : t ∈ g.graph) : t ∈ (addReferenceCore g r cu tu).graph := by
  unfold addReferenceCore
  cases h1 : refLookup g (coalesceKey r) r with
  | mk g1 ref =>
    cases h2 : pairLookup (refFieldTriples g1 ref r) cu tu with
    | mk g8 pairN =>
      have m1 : t ∈ g1.graph := by
        have hx := @mem_refLookup_graph g t (coalesceKey r) r ht
        rw [h1] at hx
        exact hx
      have m8 : t ∈ g8.graph := by
        have hx := @mem_pairLookup_graph (refFieldTriples g1 ref r) t cu tu
          (@mem_refFieldTriples_graph g1 t ref r m1)
        rw [h2] at hx
        exact hx
      simp only [h1, h2, updateDicts_graph]
      exact mem_addTriple_graph (mem_addTriple_graph (mem_addTriple_graph m8))

theorem mem_addRefList_graph {rs : List (Option Reference)} {g : TCG} {cu tu : RNode}
    {t : Triple} (ht : t ∈ g.graph) : t ∈ (addRefList g rs cu tu).1.graph := by
  induction rs generalizing g with
  | nil => exact ht
  | cons r rest ih =>
    unfold addRefList
    cases r with
    | none => exact ht
    | some v =>
      simp only [addReference]
      exact ih (mem_addReferenceCore_graph ht)

theorem mem_addTwinLoop_graph {tws : List TwinCitiesAgreement} {g : TCG} {c : City}
    {t : Triple} (ht : t ∈ g.graph) : t ∈ (addTwinLoop g c tws).1.graph := by
  induction tws generalizing g with
  | nil => exact ht
  | cons tw rest ih =>
    unfold addTwinLoop
    have h0 : t ∈ (addTwinCity g c.wiki_url tw).graph := mem_addTwinCity_graph ht
    cases h1 : addRefList (addTwinCity g c.wiki_url tw) c.ref
        (.uri c.wiki_url) (.uri tw.wiki_url) with
    | mk g1 err1 =>
      have m1 : t ∈ g1.graph := by
        have hx := @mem_addRefList_graph c.ref (addTwinCity g c.wiki_url tw)
          (RNode.uri c.wiki_url) (RNode.uri tw.wiki_url) t h0
        rw [h1] at hx
        exact hx
      cases err1 with
      | some e => exact m1
      | none =>
        cases h2 : addRefList g1 tw.refs (.uri c.wiki_url) (.uri tw.wiki_url) with
        | mk g2 err2 =>
          have m2 : t ∈ g2.graph := by
            have hx := @mem_addRefList_graph tw.refs g1
              (RNode.uri c.wiki_url) (RNode.uri tw.wiki_url) t m1
            rw [h2] at hx
            exact hx
          cases err2 with
          | some e => simp only [h2]; exact m2
          | none => simp only [h2]; exact ih m2

/-- Like `mem_addTwinLoop_graph`, but for a triple present only after the
first twin of the list has been linked. -/
theorem mem_addTwinLoop_cons {g : TCG} {c : City} {tw : TwinCitiesAgreement}
    {rest : List TwinCitiesAgreement} {t : Triple}
    (ht : t ∈ (addTwinCity g c.wiki_url tw).graph) :
    t ∈ (addTwinLoop g c (tw :: rest)).1.graph := by
  unfold addTwinLoop
  cases h1 : addRefList (addTwinCity g c.wiki_url tw) c.ref
      (.uri c.wiki_url) (.uri tw.wiki_url) with
  | mk g1 err1 =>
    have m1 : t ∈ g1.graph := by
      have hx := @mem_addRefList_graph c.ref (addTwinCity g c.wiki_url tw)
        (RNode.uri c.wiki_url) (RNode.uri tw.wiki_url) t ht
      rw [h1] at hx
      exact hx
    cases err1 with
    | some e => exact m1
    | none =>
      cases h2 : addRefList g1 tw.refs (.uri c.wiki_url) (.uri tw.wiki_url) with
      | mk g2 err2 =>
        have m2 : t ∈ g2.graph := by
          have hx := @mem_addRefList_graph tw.refs g1
            (RNode.uri c.wiki_url) (RNode.uri tw.wiki_url) t m1
          rw [h2] at hx
          exact hx
        cases err2 with
        | some e => simp only [h2]; exact m2
        | none => simp only [h2]; exact mem_addTwinLoop_graph m2

theorem add_cities_single_fst (g : TCG) (c : City) :
    (add_cities g [c]).1 = (addOneCity g c).1 := by
  unfold add_cities
  cases h : addOneCity g c with
  | mk g' err =>
    cases err with
    | none => rfl
    | some e => rfl

/-- Both directions of the twin link are in the store right after
`_add_twin`. -/
theorem twin_triples_mem (g : TCG) (cityUrl : String) (tw : TwinCitiesAgreement) :
    (⟨.uri cityUrl, pTwin, .uri tw.wiki_url⟩ : Triple) ∈ (addTwinCity g cityUrl tw).graph ∧
      (⟨.uri tw.wiki_url, pTwin, .uri cityUrl⟩ : Triple) ∈ (addTwinCity g cityUrl tw).graph := by
  unfold addTwinCity
  constructor
  · exact mem_addTriple_graph (self_mem_addTriple (by simp))
  · exact self_mem_addTriple (by simp)

/-- C4: starting from any store, ingesting a City with URL A carrying one
TwinCitiesAgreement whose wiki_url is B (for distinct A, B) makes
`get_twins A` contain an entry with url B and `get_twins B` contain an
entry with url A. -/
theorem c4_twin_symmetry (g : TCG) (A B : String) (_hAB : A ≠ B)
    (nm co wt : String) (sp : Option String) (sty : String)
    (cityRefs twinRefs : List (Option Reference)) (tn tc tt : String) :
    (∃ e ∈ get_twins (add_cities g
        [{ name := nm, country := co, wiki_url := A, wiki_text := wt,
           source_page := sp, source_type := sty, ref := cityRefs,
           twin_cities := [{ second_city := tn, second_country := tc,
                             wiki_url := B, wiki_text := tt, refs := twinRefs }] }]).1 A,
        e.url = B) ∧
      ∃ e ∈ get_twins (add_cities g
        [{ name := nm, country := co, wiki_url := A, wiki_text := wt,
           source_page := sp, source_type := sty, ref := cityRefs,
           twin_cities := [{ second_city := tn, second_country := tc,
                             wiki_url := B, wiki_text := tt, refs := twinRefs }] }]).1 B,
        e.url = A := by
  set c : City :=
    { name := nm, country := co, wiki_url := A, wiki_text := wt,
      source_page := sp, source_type := sty, ref := cityRefs,
      twin_cities := [{ second_city := tn, second_country := tc,
                        wiki_url := B, wiki_text := tt, refs := twinRefs }] } with hc
  set tw : TwinCitiesAgreement :=
    { second_city := tn, second_country := tc, wiki_url := B, wiki_text := tt,
      refs := twinRefs } with htw
  rw [add_cities_single_fst]
  have hone : (addOneCity g c).1 =
      (addTwinLoop (addCityNode g c.wiki_url c.name c.country c.wiki_text
        c.source_page (some c.source_type)) c c.twin_cities).1 := rfl
  have hAB1 : (⟨.uri A, pTwin, .uri B⟩ : Triple) ∈ (addOneCity g c).1.graph := by
    rw [hone]
    have : c.twin_cities = [tw] := rfl
    rw [this]
    refine mem_addTwinLoop_cons ?_
    have := (twin_triples_mem (addCityNode g c.wiki_url c.name c.country c.wiki_text
      c.source_page (some c.source_type)) c.wiki_url tw).1
    simpa using this
  have hBA1 : (⟨.uri B, pTwin, .uri A⟩ : Triple) ∈ (addOneCity g c).1.graph := by
    rw [hone]
    have : c.twin_cities = [tw] := rfl
    rw [this]
    refine mem_addTwinLoop_cons ?_
    have := (twin_triples_mem (addCityNode g c.wiki_url c.name c.country c.wiki_text
      c.source_page (some c.source_type)) c.wiki_url tw).2
    simpa using this
  constructor
  · refine ⟨mkTwinEntry (addOneCity g c).1 (.uri B), ?_, rfl⟩
    unfold get_twins
    exact List.mem_map_of_mem _ (mem_objectsOf.2 hAB1)
  · refine ⟨mkTwinEntry (addOneCity g c).1 (.uri A), ?_, rfl⟩
    unfold get_twins
    exact List.mem_map_of_mem _ (mem_objectsOf.2 hBA1)

/-- Witness for `c4_twin_symmetry` on an empty store and concrete cities. -/
theorem c4_twin_symmetry_witness :
    (∃ e ∈ get_twins (add_cities TCG.empty
        [{ name := "N", country := "C", wiki_url := "https://a4", wiki_text := "w",
           source_page := none, source_type := "country", ref := [],
           twin_cities := [{ second_city := "M", second_country := "D",
                             wiki_url := "https://b4", wiki_text := "v",
                             refs := [] }] }]).1 "https://a4",
        e.url = "https://b4") ∧
      ∃ e ∈ get_twins (add_cities TCG.empty
        [{ name := "N", country := "C", wiki_url := "https://a4", wiki_text := "w",
           source_page := none, source_type := "country", ref := [],
           twin_cities := [{ second_city := "M", second_country := "D",
                             wiki_url := "https://b4", wiki_text := "v",
                             refs := [] }] }]).1 "https://b4",
        e.url = "https://a4" :=
  c4_twin_symmetry TCG.empty "https://a4" "https://b4" (by decide)
    "N" "C" "w" none "country" [] [] "M" "D" "v"

theorem valueOf_eq_none_iff {g : TCG} {s : RNode} {p : String} :
    valueOf g s p = none ↔ ∀ o, (⟨s, p, o⟩ : Triple) ∉ g.graph := by
  unfold valueOf
  rw [List.head?_eq_none_iff]
  constructor
  · intro h o ho
    have : o ∈ objectsOf g s p := mem_objectsOf.2 ho
    rw [h] at this
    exact absurd this (by simp)
  · intro h
    cases hl : objectsOf g s p with
    | nil => rfl
    | cons o rest =>
      have : o ∈ objectsOf g s p := by rw [hl]; simp
      exact absurd (mem_objectsOf.1 this) (h o)

/-- Every triple `_add_city` asserts uses one of its six predicates. -/
theorem addCityNode_pred_cases {g : TCG} {t : Triple} {url nm co wt : String}
    {sp sty : Option String} (ht : t ∈ (addCityNode g url nm co wt sp sty).graph) :
    t ∈ g.graph ∨ t.pred = pType ∨ t.pred = pLabel ∨ t.pred = pCountry ∨
      t.pred = pWikiText ∨ t.pred = pSourcePage ∨ t.pred = pSourceType := by
  simp only [addCityNode, mem_addTriple_iff] at ht
  rcases ht with ⟨⟨⟨⟨⟨h | ⟨-, rfl⟩⟩ | ⟨-, rfl⟩⟩ | ⟨-, rfl⟩⟩ | ⟨-, rfl⟩⟩ | ⟨-, rfl⟩⟩ | ⟨-, rfl⟩
  · exact Or.inl h
  all_goals simp

/-- C7: a City ingested with an empty twin list never shows up in
`get_cities` (first conjunct, from the empty store), and in general
`get_cities` returns exactly the `City`-typed nodes with at least one
outgoing twin triple, annotated with url, name and country via
`mkCityEntry` (second conjunct). -/
theorem c7_isolated_city_filtering :
    (∀ (nm co url wt : String) (sp : Option String) (sty : String)
        (refs : List (Option Reference)),
        get_cities (add_cities TCG.empty
          [{ name := nm, country := co, wiki_url := url, wiki_text := wt,
             source_page := sp, source_type := sty, ref := refs,
             twin_cities := [] }]).1 = []) ∧
      ∀ (g : TCG) (e : CityEntry),
        e ∈ get_cities g ↔ ∃ cu ∈ subjectsOf g pType oCity,
          (∃ o, (⟨cu, pTwin, o⟩ : Triple) ∈ g.graph) ∧ e = mkCityEntry g cu := by
  constructor
  · intro nm co url wt sp sty refs
    rw [add_cities_single_fst]
    have hstate : (addOneCity TCG.empty
        { name := nm, country := co, wiki_url := url, wiki_text := wt,
          source_page := sp, source_type := sty, ref := refs,
          twin_cities := [] }).1 =
        addCityNode TCG.empty url nm co wt sp (some sty) := rfl
    rw [hstate]
    unfold get_cities
    rw [List.filterMap_eq_nil_iff]
    intro cu hcu
    rw [if_pos ?_]
    rw [valueOf_eq_none_iff]
    intro o ho
    rcases addCityNode_pred_cases ho with h | h | h | h | h | h | h
    · exact absurd h (by simp [TCG.empty])
    all_goals simp_all [pTwin, pType, pLabel, pCountry, pWikiText, pSourcePage, pSourceType]
  · intro g e
    unfold get_cities
    rw [List.mem_filterMap]
    constructor
    · rintro ⟨cu, hcu, hf⟩
      by_cases hv : valueOf g cu pTwin = none
      · rw [if_pos hv] at hf
        exact absurd hf (by simp)
      · rw [if_neg hv] at hf
        refine ⟨cu, hcu, ?_, (Option.some.inj hf).symm⟩
        cases hl : objectsOf g cu pTwin with
        | nil =>
          exact absurd (by unfold valueOf; rw [hl]; rfl) hv
        | cons o rest =>
          exact ⟨o, mem_objectsOf.1 (by rw [hl]; simp)⟩
    · rintro ⟨cu, hcu, ⟨o, ho⟩, rfl⟩
      refine ⟨cu, hcu, ?_⟩
      rw [if_neg ?_]
      intro hv
      exact (valueOf_eq_none_iff.1 hv) o ho

theorem is_reference_relevant_iff {g : TCG} {rn cu tu : RNode} :
    is_reference_relevant g rn cu tu = true ↔
      ∃ pr ∈ objectsOf g rn pCityPair,
        cu ∈ objectsOf g pr pCity ∧ tu ∈ objectsOf g pr pCity := by
  unfold is_reference_relevant
  rw [List.any_eq_true]
  constructor
  · rintro ⟨pr, hpr, hb⟩
    rw [Bool.and_eq_true] at hb
    exact ⟨pr, hpr, List.elem_iff.1 hb.1, List.elem_iff.1 hb.2⟩
  · rintro ⟨pr, hpr, h1, h2⟩
    exact ⟨pr, hpr, by rw [Bool.and_eq_true]
                       exact ⟨List.elem_iff.2 h1, List.elem_iff.2 h2⟩⟩

/-- Soundness of the `get_references` loop: every produced entry that is
not already in the accumulator comes from a relevant candidate node. -/
theorem getRefsAux_sound {g : TCG} {cu tu : RNode} :
    ∀ (cands : List RNode) (acc es : List RefEntry),
      getRefsAux g cu tu cands acc = .ok es →
      ∀ e ∈ es, e ∈ acc ∨ ∃ rn ∈ cands, is_reference_relevant g rn cu tu = true ∧
        ∃ urlN, valueOf g rn pUrl = some urlN ∧ e = mkRefEntry g rn (toPyStr urlN) := by
  intro cands
  induction cands with
  | nil =>
    intro acc es h e he
    unfold getRefsAux at h
    simp only [Except.ok.injEq] at h
    rw [← h] at he
    exact Or.inl he
  | cons rn rest ih =>
    intro acc es h e he
    unfold getRefsAux at h
    by_cases hrel : is_reference_relevant g rn cu tu = true
    · rw [if_pos hrel] at h
      cases hv : valueOf g rn pUrl with
      | none => rw [hv] at h; exact absurd h (by simp)
      | some urlN =>
        rw [hv] at h
        simp only at h
        by_cases hdup : (acc.map RefEntry.url).contains (toPyStr urlN) = true
        · rw [if_pos hdup] at h
          rcases ih acc es h e he with hl | ⟨rn', hrn', hrest⟩
          · exact Or.inl hl
          · exact Or.inr ⟨rn', List.mem_cons_of_mem rn hrn', hrest⟩
        · rw [if_neg hdup] at h
          rcases ih (acc ++ [mkRefEntry g rn (toPyStr urlN)]) es h e he with hl | ⟨rn', hrn', hrest⟩
          · rcases List.mem_append.1 hl with hl' | hl'
            · exact Or.inl hl'
            · rw [List.mem_singleton.1 hl']
              exact Or.inr ⟨rn, List.mem_cons_self rn rest,
                hrel, urlN, hv, rfl⟩
          · exact Or.inr ⟨rn', List.mem_cons_of_mem rn hrn', hrest⟩
    · rw [if_neg hrel] at h
      rcases ih acc es h e he with hl | ⟨rn', hrn', hrest⟩
      · exact Or.inl hl
      · exact Or.inr ⟨rn', List.mem_cons_of_mem rn hrn', hrest⟩

/-- C6: the reference scoped only to the city pair (A6, B6) does not
appear in `get_references` for (A6, C6) (first conjunct), and in general
every entry `get_references(X, Y)` returns comes from a reference node
having some CityPair scope containing both X and Y (second conjunct). -/
theorem c6_reference_scoping :
    (get_references (add_cities TCG.empty [c6City]).1 "https://a6" "https://c6" =
        Except.ok ([] : List RefEntry)) ∧
      ∀ (g : TCG) (X Y : String) (es : List RefEntry) (e : RefEntry),
        get_references g X Y = .ok es → e ∈ es →
        ∃ rn, (∃ pr ∈ objectsOf g rn pCityPair,
            RNode.uri X ∈ objectsOf g pr pCity ∧ RNode.uri Y ∈ objectsOf g pr pCity) ∧
          ∃ urlN, valueOf g rn pUrl = some urlN ∧ e = mkRefEntry g rn (toPyStr urlN) := by
  constructor
  · rfl
  · intro g X Y es e h he
    unfold get_references at h
    rcases getRefsAux_sound _ [] es h e he with hl | ⟨rn, _, hrel, urlN, hv, hval⟩
    · exact absurd hl (by simp)
    · exact ⟨rn, is_reference_relevant_iff.1 hrel, urlN, hv, hval⟩

/-- Witness for `c6_reference_scoping`: the pair (A6, B6) query does
return the attached reference, and the soundness conjunct applies to it. -/
theorem c6_reference_scoping_witness :
    ∃ rn, (∃ pr ∈ objectsOf (add_cities TCG.empty [c6City]).1 rn pCityPair,
        RNode.uri "https://a6" ∈ objectsOf (add_cities TCG.empty [c6City]).1 pr pCity ∧
          RNode.uri "https://b6" ∈ objectsOf (add_cities TCG.empty [c6City]).1 pr pCity) ∧
      ∃ urlN, valueOf (add_cities TCG.empty [c6City]).1 rn pUrl = some urlN ∧
        ({ name := none, url := "http://r6", website := none, publisher := none,
           language := none, accessDate := "", date := none } : RefEntry) =
          mkRefEntry (add_cities TCG.empty [c6City]).1 rn (toPyStr urlN) :=
  c6_reference_scoping.2 (add_cities TCG.empty [c6City]).1 "https://a6" "https://b6"
    [{ name := none, url := "http://r6", website := none, publisher := none,
       language := none, accessDate := "", date := none }]
    { name := none, url := "http://r6", website := none, publisher := none,
      language := none, accessDate := "", date := none }
    (by rfl) (by simp)

/-! ### Dictionary and `_add_triple` bookkeeping lemmas -/

theorem dictGet_insert_self [DecidableEq α] (d : List (α × β)) (k : α) (v : β) :
    dictGet (dictInsert d k v) k = some v := by
  induction d with
  | nil => simp [dictInsert, dictGet]
  | cons kv rest ih =>
    obtain ⟨k', v'⟩ := kv
    unfold dictInsert
    by_cases hk : k' = k
    · rw [if_pos hk]
      simp [dictGet]
    · rw [if_neg hk]
      unfold dictGet
      rw [if_neg hk]
      exact ih

theorem dictInsert_idem [DecidableEq α] {d : List (α × β)} {k : α} {v : β}
    (h : dictGet d k = some v) : dictInsert d k v = d := by
  induction d with
  | nil => exact absurd h (by simp [dictGet])
  | cons kv rest ih =>
    obtain ⟨k', v'⟩ := kv
    unfold dictGet at h
    unfold dictInsert
    by_cases hk : k' = k
    · rw [if_pos hk] at h ⊢
      rw [hk]
      rw [Option.some.inj h]
    · rw [if_neg hk] at h ⊢
      rw [ih h]

theorem addTriple_references (g : TCG) (s : RNode) (p : String) (o : RNode) :
    (addTriple g s p o).references = g.references := by
  unfold addTriple
  split
  · rfl
  · split <;> rfl

theorem addTriple_cityPairs (g : TCG) (s : RNode) (p : String) (o : RNode) :
    (addTriple g s p o).cityPairs = g.cityPairs := by
  unfold addTriple
  split
  · rfl
  · split <;> rfl

theorem addTriple_nextB (g : TCG) (s : RNode) (p : String) (o : RNode) :
    (addTriple g s p o).nextB = g.nextB := by
  unfold addTriple
  split
  · rfl
  · split <;> rfl

theorem addTriple_noop {g : TCG} {s : RNode} {p : String} {o : RNode}
    (h : (⟨s, p, o⟩ : Triple) ∈ g.graph ∨ o = RNode.lit "None") :
    addTriple g s p o = g := by
  unfold addTriple
  by_cases ho : o = RNode.lit "None"
  · rw [if_pos ho]
  · rw [if_neg ho]
    rcases h with h | h
    · rw [if_pos h]
    · exact absurd h ho

/-! ### Characterizing the query lists step by step -/

theorem objectsOf_addTriple_ne {g : TCG} {s' : RNode} {p' : String} {o' s : RNode}
    {p : String} (h : ¬(s' = s ∧ p' = p)) :
    objectsOf (addTriple g s' p' o') s p = objectsOf g s p := by
  unfold addTriple
  split
  · rfl
  · split
    · rfl
    · unfold objectsOf
      rw [List.filter_append]
      have : List.filter (fun t : Triple => t.subj == s && t.pred == p)
          ([⟨s', p', o'⟩] : List Triple) = [] := by
        have hbf : (s' == s && p' == p) = false := by
          rw [Bool.eq_false_iff]
          intro hx
          rw [Bool.and_eq_true, beq_iff_eq, beq_iff_eq] at hx
          exact h hx
        simp [List.filter, hbf]
      rw [this, List.append_nil]

theorem objectsOf_addTriple_self {g : TCG} {s : RNode} {p : String} {o : RNode}
    (ho : o ≠ RNode.lit "None") (hnm : (⟨s, p, o⟩ : Triple) ∉ g.graph) :
    objectsOf (addTriple g s p o) s p = objectsOf g s p ++ [o] := by
  unfold addTriple
  rw [if_neg ho, if_neg hnm]
  unfold objectsOf
  rw [List.filter_append, List.map_append]
  have : List.filter (fun t : Triple => t.subj == s && t.pred == p)
      ([⟨s, p, o⟩] : List Triple) = [⟨s, p, o⟩] := by
    simp
  rw [this]
  rfl

theorem objectsOf_empty (s : RNode) (p : String) : objectsOf TCG.empty s p = [] := rfl

theorem refTypeTriples_addTriple_ne {g : TCG} {s : RNode} {p : String} {o : RNode}
    (h : ¬(p = pType ∧ o = oReference)) :
    refTypeTriples (addTriple g s p o) = refTypeTriples g := by
  unfold addTriple
  split
  · rfl
  · split
    · rfl
    · unfold refTypeTriples
      rw [List.filter_append]
      have hbf : (p == pType && o == oReference) = false := by
        rw [Bool.eq_false_iff]
        intro hx
        rw [Bool.and_eq_true, beq_iff_eq, beq_iff_eq] at hx
        exact h hx
      have : List.filter (fun tr : Triple => tr.pred == pType && tr.obj == oReference)
          ([⟨s, p, o⟩] : List Triple) = [] := by
        simp [List.filter, hbf]
      rw [this, List.append_nil]

theorem refTypeTriples_addTriple_of_pred_ne {g : TCG} {s : RNode} {p : String} {o : RNode}
    (h : p ≠ pType) : refTypeTriples (addTriple g s p o) = refTypeTriples g :=
  refTypeTriples_addTriple_ne (fun hx => h hx.1)

theorem refTypeTriples_addTriple_of_obj_ne {g : TCG} {s : RNode} {p : String} {o : RNode}
    (h : o ≠ oReference) : refTypeTriples (addTriple g s p o) = refTypeTriples g :=
  refTypeTriples_addTriple_ne (fun hx => h hx.2)

theorem refTypeTriples_addTriple_self {g : TCG} {s : RNode}
    (hnm : (⟨s, pType, oReference⟩ : Triple) ∉ g.graph) :
    refTypeTriples (addTriple g s pType oReference) =
      refTypeTriples g ++ [⟨s, pType, oReference⟩] := by
  unfold addTriple
  rw [if_neg (by simp [oReference]), if_neg hnm]
  unfold refTypeTriples
  rw [List.filter_append]
  have : List.filter (fun tr : Triple => tr.pred == pType && tr.obj == oReference)
      ([⟨s, pType, oReference⟩] : List Triple) = [⟨s, pType, oReference⟩] := by
    simp
  rw [this]

theorem not_mem_of_refTypeTriples_nil {g : TCG} (h : refTypeTriples g = []) (s : RNode) :
    (⟨s, pType, oReference⟩ : Triple) ∉ g.graph := by
  intro hx
  have hmem : (⟨s, pType, oReference⟩ : Triple) ∈ refTypeTriples g := by
    unfold refTypeTriples
    rw [List.mem_filter]
    exact ⟨hx, by simp⟩
  rw [h] at hmem
  exact absurd hmem (by simp)

theorem refTypeTriples_addCityNode (g : TCG) (url nm co wt : String)
    (sp sty : Option String) :
    refTypeTriples (addCityNode g url nm co wt sp sty) = refTypeTriples g := by
  unfold addCityNode
  rw [refTypeTriples_addTriple_of_pred_ne (by decide),
      refTypeTriples_addTriple_of_pred_ne (by decide),
      refTypeTriples_addTriple_of_pred_ne (by decide),
      refTypeTriples_addTriple_of_pred_ne (by decide),
      refTypeTriples_addTriple_of_pred_ne (by decide),
      refTypeTriples_addTriple_of_obj_ne (by decide)]

theorem refTypeTriples_addTwinCity (g : TCG) (cityUrl : String)
    (tw : TwinCitiesAgreement) :
    refTypeTriples (addTwinCity g cityUrl tw) = refTypeTriples g := by
  unfold addTwinCity
  rw [refTypeTriples_addTriple_of_pred_ne (by decide),
      refTypeTriples_addTriple_of_pred_ne (by decide),
      refTypeTriples_addCityNode]

theorem refTypeTriples_refFieldTriples (g : TCG) (ref : RNode) (r : Reference) :
    refTypeTriples (refFieldTriples g ref r) = refTypeTriples g := by
  unfold refFieldTriples
  rw [refTypeTriples_addTriple_of_pred_ne (by decide),
      refTypeTriples_addTriple_of_pred_ne (by decide),
      refTypeTriples_addTriple_of_pred_ne (by decide),
      refTypeTriples_addTriple_of_pred_ne (by decide),
      refTypeTriples_addTriple_of_pred_ne (by decide),
      refTypeTriples_addTriple_of_pred_ne (by decide)]

theorem refTypeTriples_pairLookup (g : TCG) (cu tu : RNode) :
    refTypeTriples (pairLookup g cu tu).1 = refTypeTriples g := by
  unfold pairLookup
  split
  · rfl
  · split
    · rfl
    · rw [refTypeTriples_addTriple_of_pred_ne (by decide),
          refTypeTriples_addTriple_of_pred_ne (by decide),
          refTypeTriples_addTriple_of_obj_ne (by decide)]
      rfl

theorem refTypeTriples_updateDicts (g : TCG) (key : String) (ref cu tu pairN : RNode) :
    refTypeTriples (updateDicts g key ref cu tu pairN) = refTypeTriples g := rfl

/-- Re-running `_add_reference` with the same reference data on the same
city pair is a no-op: the dedup key resolves to the node stored by the
first run, every triple is already present (or `None`-skipped), and the
dict writes overwrite like with like. -/
theorem addReferenceCore_idem (g : TCG) (r : Reference) (cu tu : RNode) :
    addReferenceCore (addReferenceCore g r cu tu) r cu tu = addReferenceCore g r cu tu := by
  cases h1 : refLookup g (coalesceKey r) r with
  | mk ga refa =>
    cases h2 : pairLookup (refFieldTriples ga refa r) cu tu with
    | mk gb pairN =>
      have hg1 : addReferenceCore g r cu tu =
          updateDicts (addTriple (addTriple (addTriple gb refa pCityPair pairN)
            cu pReference refa) tu pReference refa) (coalesceKey r) refa cu tu pairN := by
        unfold addReferenceCore
        simp only [h1, h2]
      set G1 := updateDicts (addTriple (addTriple (addTriple gb refa pCityPair pairN)
        cu pReference refa) tu pReference refa) (coalesceKey r) refa cu tu pairN with hG1
      have hrefs : dictGet G1.references (coalesceKey r) = some refa := by
        rw [hG1]
        show dictGet (dictInsert _ (coalesceKey r) refa) (coalesceKey r) = some refa
        exact dictGet_insert_self _ _ _
      have hpairs : dictGet G1.cityPairs (cu, tu) = some pairN := by
        rw [hG1]
        show dictGet (dictInsert _ (cu, tu) pairN) (cu, tu) = some pairN
        exact dictGet_insert_self _ _ _
      have hrl2 : refLookup G1 (coalesceKey r) r = (G1, refa) := by
        unfold refLookup
        rw [hrefs]
      have memG1 : ∀ {t : Triple}, t ∈ gb.graph → t ∈ G1.graph := by
        intro t ht
        rw [hG1, updateDicts_graph]
        exact mem_addTriple_graph (mem_addTriple_graph (mem_addTriple_graph ht))
      have memFields : ∀ {t : Triple}, t ∈ (refFieldTriples ga refa r).graph →
          t ∈ G1.graph := by
        intro t ht
        apply memG1
        have hx := @mem_pairLookup_graph (refFieldTriples ga refa r) t cu tu ht
        rw [h2] at hx
        exact hx
      have e_web : addTriple G1 refa pWebsite (.lit (pyStr r.website)) = G1 := by
        refine addTriple_noop ?_
        by_cases hn : pyStr r.website = "None"
        · exact Or.inr (by rw [hn])
        · refine Or.inl (memFields ?_)
          unfold refFieldTriples
          exact mem_addTriple_graph (mem_addTriple_graph (mem_addTriple_graph
            (mem_addTriple_graph (mem_addTriple_graph (self_mem_addTriple
              (by simp only [ne_eq, RNode.lit.injEq]; exact hn))))))
      have e_lab : addTriple G1 refa pLabel (.lit (pyStr r.title)) = G1 := by
        refine addTriple_noop ?_
        by_cases hn : pyStr r.title = "None"
        · exact Or.inr (by rw [hn])
        · refine Or.inl (memFields ?_)
          unfold refFieldTriples
          exact mem_addTriple_graph (mem_addTriple_graph (mem_addTriple_graph
            (mem_addTriple_graph (self_mem_addTriple
              (by simp only [ne_eq, RNode.lit.injEq]; exact hn)))))
      have e_pub : addTriple G1 refa pPublisher (.lit (pyStr r.publisher)) = G1 := by
        refine addTriple_noop ?_
        by_cases hn : pyStr r.publisher = "None"
        · exact Or.inr (by rw [hn])
        · refine Or.inl (memFields ?_)
          unfold refFieldTriples
          exact mem_addTriple_graph (mem_addTriple_graph (mem_addTriple_graph
            (self_mem_addTriple (by simp only [ne_eq, RNode.lit.injEq]; exact hn))))
      have e_lang : addTriple G1 refa pLanguage (.lit (pyStr r.language)) = G1 := by
        refine addTriple_noop ?_
        by_cases hn : pyStr r.language = "None"
        · exact Or.inr (by rw [hn])
        · refine Or.inl (memFields ?_)
          unfold refFieldTriples
          exact mem_addTriple_graph (mem_addTriple_graph (self_mem_addTriple
            (by simp only [ne_eq, RNode.lit.injEq]; exact hn)))
      have e_acc : addTriple G1 refa pAccessDate (.lit (pyStr r.access_date)) = G1 := by
        refine addTriple_noop ?_
        by_cases hn : pyStr r.access_date = "None"
        · exact Or.inr (by rw [hn])
        · refine Or.inl (memFields ?_)
          unfold refFieldTriples
          exact mem_addTriple_graph (self_mem_addTriple
            (by simp only [ne_eq, RNode.lit.injEq]; exact hn))
      have e_date : addTriple G1 refa pDate (.lit (pyStr r.date)) = G1 := by
        refine addTriple_noop ?_
        by_cases hn : pyStr r.date = "None"
        · exact Or.inr (by rw [hn])
        · refine Or.inl (memFields ?_)
          unfold refFieldTriples
          exact self_mem_addTriple (by simp only [ne_eq, RNode.lit.injEq]; exact hn)
      have hfields : refFieldTriples G1 refa r = G1 := by
        unfold refFieldTriples
        rw [e_web, e_lab, e_pub, e_lang, e_acc, e_date]
      have hpl2 : pairLookup G1 cu tu = (G1, pairN) := by
        unfold pairLookup
        rw [hpairs]
      have e_cp : addTriple G1 refa pCityPair pairN = G1 := by
        refine addTriple_noop ?_
        by_cases hn : pairN = RNode.lit "None"
        · exact Or.inr hn
        · refine Or.inl ?_
          rw [hG1, updateDicts_graph]
          exact mem_addTriple_graph (mem_addTriple_graph (self_mem_addTriple hn))
      have e_cu : addTriple G1 cu pReference refa = G1 := by
        refine addTriple_noop ?_
        by_cases hn : refa = RNode.lit "None"
        · exact Or.inr hn
        · refine Or.inl ?_
          rw [hG1, updateDicts_graph]
          exact mem_addTriple_graph (self_mem_addTriple hn)
      have e_tu : addTriple G1 tu pReference refa = G1 := by
        refine addTriple_noop ?_
        by_cases hn : refa = RNode.lit "None"
        · exact Or.inr hn
        · refine Or.inl ?_
          rw [hG1, updateDicts_graph]
          exact self_mem_addTriple hn
      have hupd : updateDicts G1 (coalesceKey r) refa cu tu pairN = G1 := by
        unfold updateDicts
        rw [dictInsert_idem hrefs, dictInsert_idem hpairs]
      calc addReferenceCore (addReferenceCore g r cu tu) r cu tu
          = addReferenceCore G1 r cu tu := by rw [hg1]
        _ = G1 := by
            unfold addReferenceCore
            simp only [hrl2]
            rw [hfields]
            simp only [hpl2]
            rw [e_cp, e_cu, e_tu]
            exact hupd
        _ = addReferenceCore g r cu tu := hg1.symm

theorem objectsOf_addTriple_of_subj_ne {g : TCG} {s' : RNode} {p' : String} {o' s : RNode}
    {p : String} (h : s' ≠ s) : objectsOf (addTriple g s' p' o') s p = objectsOf g s p :=
  objectsOf_addTriple_ne (fun hx => h hx.1)

theorem objectsOf_addTriple_of_pred_ne {g : TCG} {s' : RNode} {p' : String} {o' s : RNode}
    {p : String} (h : p' ≠ p) : objectsOf (addTriple g s' p' o') s p = objectsOf g s p :=
  objectsOf_addTriple_ne (fun hx => h hx.2)

theorem objectsOf_refFieldTriples_of_subj_ne {g : TCG} {ref : RNode} {r : Reference}
    {s : RNode} {p : String} (h : ref ≠ s) :
    objectsOf (refFieldTriples g ref r) s p = objectsOf g s p := by
  unfold refFieldTriples
  simp only [objectsOf_addTriple_of_subj_ne h]

theorem objectsOf_mkNextB (g : TCG) (n : Nat) (s : RNode) (p : String) :
    objectsOf { g with nextB := n } s p = objectsOf g s p := rfl

theorem refTypeTriples_mkNextB (g : TCG) (n : Nat) :
    refTypeTriples { g with nextB := n } = refTypeTriples g := rfl

theorem objectsOf_updateDicts (g : TCG) (key : String) (ref cu tu pairN : RNode)
    (s : RNode) (p : String) :
    objectsOf (updateDicts g key ref cu tu pairN) s p = objectsOf g s p := rfl

theorem addCityNode_references (g : TCG) (url nm co wt : String) (sp sty : Option String) :
    (addCityNode g url nm co wt sp sty).references = g.references := by
  unfold addCityNode
  simp only [addTriple_references]

theorem addCityNode_cityPairs (g : TCG) (url nm co wt : String) (sp sty : Option String) :
    (addCityNode g url nm co wt sp sty).cityPairs = g.cityPairs := by
  unfold addCityNode
  simp only [addTriple_cityPairs]

theorem addCityNode_nextB (g : TCG) (url nm co wt : String) (sp sty : Option String) :
    (addCityNode g url nm co wt sp sty).nextB = g.nextB := by
  unfold addCityNode
  simp only [addTriple_nextB]

theorem addTwinCity_references (g : TCG) (cityUrl : String) (tw : TwinCitiesAgreement) :
    (addTwinCity g cityUrl tw).references = g.references := by
  unfold addTwinCity
  simp only [addTriple_references, addCityNode_references]

theorem addTwinCity_cityPairs (g : TCG) (cityUrl : String) (tw : TwinCitiesAgreement) :
    (addTwinCity g cityUrl tw).cityPairs = g.cityPairs := by
  unfold addTwinCity
  simp only [addTriple_cityPairs, addCityNode_cityPairs]

theorem addTwinCity_nextB (g : TCG) (cityUrl : String) (tw : TwinCitiesAgreement) :
    (addTwinCity g cityUrl tw).nextB = g.nextB := by
  unfold addTwinCity
  simp only [addTriple_nextB, addCityNode_nextB]

theorem refFieldTriples_cityPairs (g : TCG) (ref : RNode) (r : Reference) :
    (refFieldTriples g ref r).cityPairs = g.cityPairs := by
  unfold refFieldTriples
  simp only [addTriple_cityPairs]

theorem refFieldTriples_nextB (g : TCG) (ref : RNode) (r : Reference) :
    (refFieldTriples g ref r).nextB = g.nextB := by
  unfold refFieldTriples
  simp only [addTriple_nextB]

theorem c5Base_references (A B u : String) (t p : Option String) :
    (c5Base A B u t p).references = [] := by
  unfold c5Base
  rw [addTwinCity_references, addCityNode_references]
  rfl

theorem c5Base_cityPairs (A B u : String) (t p : Option String) :
    (c5Base A B u t p).cityPairs = [] := by
  unfold c5Base
  rw [addTwinCity_cityPairs, addCityNode_cityPairs]
  rfl

theorem c5Base_nextB (A B u : String) (t p : Option String) :
    (c5Base A B u t p).nextB = 0 := by
  unfold c5Base
  rw [addTwinCity_nextB, addCityNode_nextB]
  rfl

theorem c5Base_objectsOf {A B u : String} {t p : Option String} {s : RNode} {P : String}
    (h1 : pType ≠ P) (h2 : pLabel ≠ P) (h3 : pCountry ≠ P) (h4 : pWikiText ≠ P)
    (h5 : pSourcePage ≠ P) (h6 : pSourceType ≠ P) (h7 : pTwin ≠ P) :
    objectsOf (c5Base A B u t p) s P = [] := by
  unfold c5Base addTwinCity addCityNode
  simp only [objectsOf_addTriple_of_pred_ne h1, objectsOf_addTriple_of_pred_ne h2,
    objectsOf_addTriple_of_pred_ne h3, objectsOf_addTriple_of_pred_ne h4,
    objectsOf_addTriple_of_pred_ne h5, objectsOf_addTriple_of_pred_ne h6,
    objectsOf_addTriple_of_pred_ne h7]
  rfl

theorem c5_refLookup_eq (A B u : String) (t p : Option String) :
    refLookup (c5Base A B u t p) u (ref5 u t p) = (c5Ga A B u t p, RNode.blank 0) := by
  unfold refLookup
  have hd : dictGet (c5Base A B u t p).references u = none := by
    simp only [c5Base_references]
    rfl
  rw [hd, c5Base_nextB]
  rfl

theorem c5Ga_cityPairs (A B u : String) (t p : Option String) :
    (c5Ga A B u t p).cityPairs = [] := by
  unfold c5Ga
  simp only [addTriple_cityPairs]
  show (c5Base A B u t p).cityPairs = []
  exact c5Base_cityPairs A B u t p

theorem c5Ga_nextB (A B u : String) (t p : Option String) :
    (c5Ga A B u t p).nextB = 1 := by
  unfold c5Ga
  simp only [addTriple_nextB]

theorem c5X_cityPairs (A B u : String) (t p : Option String) :
    (refFieldTriples (c5Ga A B u t p) (RNode.blank 0) (ref5 u t p)).cityPairs = [] :=
  (refFieldTriples_cityPairs _ _ _).trans (c5Ga_cityPairs A B u t p)

theorem c5X_nextB (A B u : String) (t p : Option String) :
    (refFieldTriples (c5Ga A B u t p) (RNode.blank 0) (ref5 u t p)).nextB = 1 :=
  (refFieldTriples_nextB _ _ _).trans (c5Ga_nextB A B u t p)

theorem c5_pairLookup_eq (A B u : String) (t p : Option String) :
    pairLookup (refFieldTriples (c5Ga A B u t p) (RNode.blank 0) (ref5 u t p))
      (RNode.uri A) (RNode.uri B) = (c5Gc A B u t p, RNode.blank 1) := by
  unfold pairLookup
  have hd1 : dictGet (refFieldTriples (c5Ga A B u t p) (RNode.blank 0)
      (ref5 u t p)).cityPairs (RNode.uri A, RNode.uri B) = none := by
    simp only [c5X_cityPairs]
    rfl
  have hd2 : dictGet (refFieldTriples (c5Ga A B u t p) (RNode.blank 0)
      (ref5 u t p)).cityPairs (RNode.uri B, RNode.uri A) = none := by
    simp only [c5X_cityPairs]
    rfl
  rw [hd1, hd2, c5X_nextB]
  rfl

theorem c5_addOneCity_eq (A B u : String) (t p : Option String) :
    addOneCity TCG.empty (pairCity5 A B u t p) =
      (addReferenceCore (addReferenceCore (c5Base A B u t p) (ref5 u t p)
        (.uri A) (.uri B)) (ref5 u t p) (.uri A) (.uri B), none) := rfl

theorem c5_state_eq (A B u : String) (t p : Option String) :
    (add_cities TCG.empty [pairCity5 A B u t p]).1 = c5Final A B u t p := by
  have h1 : (add_cities TCG.empty [pairCity5 A B u t p]).1 =
      addReferenceCore (addReferenceCore (c5Base A B u t p) (ref5 u t p)
        (.uri A) (.uri B)) (ref5 u t p) (.uri A) (.uri B) := by
    rw [add_cities_single_fst, c5_addOneCity_eq]
  have h2 : addReferenceCore (c5Base A B u t p) (ref5 u t p)
      (.uri A) (.uri B) = c5Final A B u t p := by
    unfold addReferenceCore
    simp only [show coalesceKey (ref5 u t p) = u from rfl, c5_refLookup_eq,
      c5_pairLookup_eq]
    rfl
  rw [h1, addReferenceCore_idem, h2]

theorem objectsOf_refFieldTriples_pred_notin {g : TCG} {ref : RNode} {r : Reference}
    {s : RNode} {P : String} (h1 : pWebsite ≠ P) (h2 : pLabel ≠ P) (h3 : pPublisher ≠ P)
    (h4 : pLanguage ≠ P) (h5 : pAccessDate ≠ P) (h6 : pDate ≠ P) :
    objectsOf (refFieldTriples g ref r) s P = objectsOf g s P := by
  unfold refFieldTriples
  simp only [objectsOf_addTriple_of_pred_ne h1, objectsOf_addTriple_of_pred_ne h2,
    objectsOf_addTriple_of_pred_ne h3, objectsOf_addTriple_of_pred_ne h4,
    objectsOf_addTriple_of_pred_ne h5, objectsOf_addTriple_of_pred_ne h6]

theorem c5Gc_objectsOf_not_pair_city {A B u : String} {t p : Option String}
    {s : RNode} {P : String} (hP1 : pType ≠ P) (hP2 : pCity ≠ P) (hP3 : pUrl ≠ P)
    (hP4 : pWebsite ≠ P) (hP5 : pLabel ≠ P) (hP6 : pPublisher ≠ P) (hP7 : pLanguage ≠ P)
    (hP8 : pAccessDate ≠ P) (hP9 : pDate ≠ P) (hP10 : pCountry ≠ P) (hP11 : pWikiText ≠ P)
    (hP12 : pSourcePage ≠ P) (hP13 : pSourceType ≠ P) (hP14 : pTwin ≠ P) :
    objectsOf (c5Gc A B u t p) s P = [] := by
  unfold c5Gc
  simp only [objectsOf_addTriple_of_pred_ne hP2, objectsOf_addTriple_of_pred_ne hP1,
    objectsOf_mkNextB,
    objectsOf_refFieldTriples_pred_notin hP4 hP5 hP6 hP7 hP8 hP9]
  unfold c5Ga
  simp only [objectsOf_addTriple_of_pred_ne hP3, objectsOf_addTriple_of_pred_ne hP1,
    objectsOf_mkNextB]
  exact c5Base_objectsOf hP1 hP5 hP10 hP11 hP12 hP13 hP14

theorem c5_objA (A B u : String) (t p : Option String) (hAB : A ≠ B) :
    objectsOf (c5Final A B u t p) (RNode.uri A) pReference = [RNode.blank 0] := by
  have hBA : RNode.uri B ≠ RNode.uri A := fun hx => hAB (RNode.uri.inj hx).symm
  have hb0A : RNode.blank 0 ≠ RNode.uri A := fun hx => RNode.noConfusion hx
  have hW : objectsOf (addTriple (c5Gc A B u t p) (RNode.blank 0) pCityPair (RNode.blank 1))
      (RNode.uri A) pReference = [] := by
    rw [objectsOf_addTriple_of_subj_ne hb0A]
    exact c5Gc_objectsOf_not_pair_city (by decide) (by decide) (by decide) (by decide)
      (by decide) (by decide) (by decide) (by decide) (by decide) (by decide) (by decide)
      (by decide) (by decide) (by decide)
  have hnm : (⟨RNode.uri A, pReference, RNode.blank 0⟩ : Triple) ∉
      (addTriple (c5Gc A B u t p) (RNode.blank 0) pCityPair (RNode.blank 1)).graph := by
    intro hm
    have hx := mem_objectsOf.2 hm
    rw [hW] at hx
    exact absurd hx (by simp)
  unfold c5Final
  simp only [objectsOf_updateDicts, objectsOf_addTriple_of_subj_ne hBA]
  rw [objectsOf_addTriple_self (fun hx => RNode.noConfusion hx) hnm, hW]
  rfl

theorem c5_objB (A B u : String) (t p : Option String) (hAB : A ≠ B) :
    objectsOf (c5Final A B u t p) (RNode.uri B) pReference = [RNode.blank 0] := by
  have hAB' : RNode.uri A ≠ RNode.uri B := fun hx => hAB (RNode.uri.inj hx)
  have hb0B : RNode.blank 0 ≠ RNode.uri B := fun hx => RNode.noConfusion hx
  have hW : objectsOf (addTriple (addTriple (c5Gc A B u t p) (RNode.blank 0) pCityPair
      (RNode.blank 1)) (RNode.uri A) pReference (RNode.blank 0))
      (RNode.uri B) pReference = [] := by
    rw [objectsOf_addTriple_of_subj_ne hAB', objectsOf_addTriple_of_subj_ne hb0B]
    exact c5Gc_objectsOf_not_pair_city (by decide) (by decide) (by decide) (by decide)
      (by decide) (by decide) (by decide) (by decide) (by decide) (by decide) (by decide)
      (by decide) (by decide) (by decide)
  have hnm : (⟨RNode.uri B, pReference, RNode.blank 0⟩ : Triple) ∉
      (addTriple (addTriple (c5Gc A B u t p) (RNode.blank 0) pCityPair (RNode.blank 1))
        (RNode.uri A) pReference (RNode.blank 0)).graph := by
    intro hm
    have hx := mem_objectsOf.2 hm
    rw [hW] at hx
    exact absurd hx (by simp)
  unfold c5Final
  simp only [objectsOf_updateDicts]
  rw [objectsOf_addTriple_self (fun hx => RNode.noConfusion hx) hnm, hW]
  rfl

theorem c5_objPair (A B u : String) (t p : Option String) :
    objectsOf (c5Final A B u t p) (RNode.blank 0) pCityPair = [RNode.blank 1] := by
  have hGc : objectsOf (c5Gc A B u t p) (RNode.blank 0) pCityPair = [] :=
    c5Gc_objectsOf_not_pair_city (by decide) (by decide) (by decide) (by decide)
      (by decide) (by decide) (by decide) (by decide) (by decide) (by decide) (by decide)
      (by decide) (by decide) (by decide)
  have hnm : (⟨RNode.blank 0, pCityPair, RNode.blank 1⟩ : Triple) ∉
      (c5Gc A B u t p).graph := by
    intro hm
    have hx := mem_objectsOf.2 hm
    rw [hGc] at hx
    exact absurd hx (by simp)
  unfold c5Final
  simp only [objectsOf_updateDicts,
    objectsOf_addTriple_of_pred_ne (show pReference ≠ pCityPair from by decide)]
  rw [objectsOf_addTriple_self (fun hx => RNode.noConfusion hx) hnm, hGc]
  rfl

theorem c5_objCity (A B u : String) (t p : Option String) (hAB : A ≠ B) :
    objectsOf (c5Final A B u t p) (RNode.blank 1) pCity = [RNode.uri A, RNode.uri B] := by
  have hbase : objectsOf (addTriple
      { refFieldTriples (c5Ga A B u t p) (RNode.blank 0) (ref5 u t p) with nextB := 2 }
      (RNode.blank 1) pType oCityPair) (RNode.blank 1) pCity = [] := by
    simp only [objectsOf_addTriple_of_pred_ne (show pType ≠ pCity from by decide),
      objectsOf_mkNextB,
      objectsOf_refFieldTriples_pred_notin (show pWebsite ≠ pCity from by decide)
        (show pLabel ≠ pCity from by decide) (show pPublisher ≠ pCity from by decide)
        (show pLanguage ≠ pCity from by decide) (show pAccessDate ≠ pCity from by decide)
        (show pDate ≠ pCity from by decide)]
    unfold c5Ga
    simp only [objectsOf_addTriple_of_pred_ne (show pUrl ≠ pCity from by decide),
      objectsOf_addTriple_of_pred_ne (show pType ≠ pCity from by decide),
      objectsOf_mkNextB]
    exact c5Base_objectsOf (by decide) (by decide) (by decide) (by decide) (by decide)
      (by decide) (by decide)
  have hnmA : (⟨RNode.blank 1, pCity, RNode.uri A⟩ : Triple) ∉ (addTriple
      { refFieldTriples (c5Ga A B u t p) (RNode.blank 0) (ref5 u t p) with nextB := 2 }
      (RNode.blank 1) pType oCityPair).graph := by
    intro hm
    have hx := mem_objectsOf.2 hm
    rw [hbase] at hx
    exact absurd hx (by simp)
  have hmid : objectsOf (addTriple (addTriple
      { refFieldTriples (c5Ga A B u t p) (RNode.blank 0) (ref5 u t p) with nextB := 2 }
      (RNode.blank 1) pType oCityPair) (RNode.blank 1) pCity (RNode.uri A))
      (RNode.blank 1) pCity = [RNode.uri A] := by
    rw [objectsOf_addTriple_self (fun hx => RNode.noConfusion hx) hnmA, hbase]
    rfl
  have hnmB : (⟨RNode.blank 1, pCity, RNode.uri B⟩ : Triple) ∉ (addTriple (addTriple
      { refFieldTriples (c5Ga A B u t p) (RNode.blank 0) (ref5 u t p) with nextB := 2 }
      (RNode.blank 1) pType oCityPair) (RNode.blank 1) pCity (RNode.uri A)).graph := by
    intro hm
    have hx := mem_objectsOf.2 hm
    rw [hmid] at hx
    rw [List.mem_singleton] at hx
    exact hAB (RNode.uri.inj hx).symm
  unfold c5Final
  simp only [objectsOf_updateDicts,
    objectsOf_addTriple_of_pred_ne (show pReference ≠ pCity from by decide),
    objectsOf_addTriple_of_pred_ne (show pCityPair ≠ pCity from by decide)]
  unfold c5Gc
  rw [objectsOf_addTriple_self (fun hx => RNode.noConfusion hx) hnmB, hmid]
  rfl

theorem c5_objUrl (A B u : String) (t p : Option String) (hu : u ≠ "None") :
    objectsOf (c5Final A B u t p) (RNode.blank 0) pUrl = [RNode.lit u] := by
  have hbase : objectsOf (addTriple { c5Base A B u t p with nextB := 1 }
      (RNode.blank 0) pType oReference) (RNode.blank 0) pUrl = [] := by
    simp only [objectsOf_addTriple_of_pred_ne (show pType ≠ pUrl from by decide),
      objectsOf_mkNextB]
    exact c5Base_objectsOf (by decide) (by decide) (by decide) (by decide) (by decide)
      (by decide) (by decide)
  have hnm : (⟨RNode.blank 0, pUrl, RNode.lit u⟩ : Triple) ∉
      (addTriple { c5Base A B u t p with nextB := 1 }
        (RNode.blank 0) pType oReference).graph := by
    intro hm
    have hx := mem_objectsOf.2 hm
    rw [hbase] at hx
    exact absurd hx (by simp)
  have hGa : objectsOf (c5Ga A B u t p) (RNode.blank 0) pUrl = [RNode.lit u] := by
    unfold c5Ga
    rw [objectsOf_addTriple_self (fun hx => hu (RNode.lit.inj hx)) hnm, hbase]
    rfl
  unfold c5Final
  simp only [objectsOf_updateDicts,
    objectsOf_addTriple_of_pred_ne (show pReference ≠ pUrl from by decide),
    objectsOf_addTriple_of_pred_ne (show pCityPair ≠ pUrl from by decide)]
  unfold c5Gc
  simp only [objectsOf_addTriple_of_pred_ne (show pCity ≠ pUrl from by decide),
    objectsOf_addTriple_of_pred_ne (show pType ≠ pUrl from by decide),
    objectsOf_mkNextB,
    objectsOf_refFieldTriples_pred_notin (show pWebsite ≠ pUrl from by decide)
      (show pLabel ≠ pUrl from by decide) (show pPublisher ≠ pUrl from by decide)
      (show pLanguage ≠ pUrl from by decide) (show pAccessDate ≠ pUrl from by decide)
      (show pDate ≠ pUrl from by decide)]
  exact hGa

theorem c5_refTypeCount (A B u : String) (t p : Option String) :
    refTypeTriples (c5Final A B u t p) =
      [⟨RNode.blank 0, pType, oReference⟩] := by
  have hbase : refTypeTriples (c5Base A B u t p) = [] := by
    unfold c5Base
    rw [refTypeTriples_addTwinCity, refTypeTriples_addCityNode]
    rfl
  have hnm : (⟨RNode.blank 0, pType, oReference⟩ : Triple) ∉
      ({ c5Base A B u t p with nextB := 1 } : TCG).graph := by
    have : refTypeTriples ({ c5Base A B u t p with nextB := 1 } : TCG) = [] := by
      rw [refTypeTriples_mkNextB]
      exact hbase
    exact not_mem_of_refTypeTriples_nil this _
  unfold c5Final
  rw [refTypeTriples_updateDicts,
    refTypeTriples_addTriple_of_pred_ne (show pReference ≠ pType from by decide),
    refTypeTriples_addTriple_of_pred_ne (show pReference ≠ pType from by decide),
    refTypeTriples_addTriple_of_pred_ne (show pCityPair ≠ pType from by decide)]
  unfold c5Gc
  rw [refTypeTriples_addTriple_of_pred_ne (show pCity ≠ pType from by decide),
    refTypeTriples_addTriple_of_pred_ne (show pCity ≠ pType from by decide),
    refTypeTriples_addTriple_of_obj_ne (show oCityPair ≠ oReference from by decide),
    refTypeTriples_mkNextB, refTypeTriples_refFieldTriples]
  unfold c5Ga
  rw [refTypeTriples_addTriple_of_pred_ne (show pUrl ≠ pType from by decide),
    refTypeTriples_addTriple_self hnm, refTypeTriples_mkNextB, hbase]
  rfl

theorem getRefsAux_cons_new {g : TCG} {cu tu rn : RNode} {rest : List RNode}
    {acc : List RefEntry} {urlN : RNode}
    (hrel : is_reference_relevant g rn cu tu = true)
    (hval : valueOf g rn pUrl = some urlN)
    (hnew : (acc.map RefEntry.url).contains (toPyStr urlN) = false) :
    getRefsAux g cu tu (rn :: rest) acc =
      getRefsAux g cu tu rest (acc ++ [mkRefEntry g rn (toPyStr urlN)]) := by
  simp only [getRefsAux]
  rw [hrel, if_pos rfl, hval]
  show (if (acc.map RefEntry.url).contains (toPyStr urlN) then
      getRefsAux g cu tu rest acc
    else getRefsAux g cu tu rest (acc ++ [mkRefEntry g rn (toPyStr urlN)])) =
    getRefsAux g cu tu rest (acc ++ [mkRefEntry g rn (toPyStr urlN)])
  rw [hnew]
  exact if_neg Bool.false_ne_true

theorem getRefsAux_cons_dup {g : TCG} {cu tu rn : RNode} {rest : List RNode}
    {acc : List RefEntry} {urlN : RNode}
    (hrel : is_reference_relevant g rn cu tu = true)
    (hval : valueOf g rn pUrl = some urlN)
    (hdup : (acc.map RefEntry.url).contains (toPyStr urlN) = true) :
    getRefsAux g cu tu (rn :: rest) acc = getRefsAux g cu tu rest acc := by
  simp only [getRefsAux]
  rw [hrel, if_pos rfl, hval]
  show (if (acc.map RefEntry.url).contains (toPyStr urlN) then
      getRefsAux g cu tu rest acc
    else getRefsAux g cu tu rest (acc ++ [mkRefEntry g rn (toPyStr urlN)])) =
    getRefsAux g cu tu rest acc
  rw [hdup]
  exact if_pos rfl

/-- C5: inserting the same reference data (identical url, title, publisher)
twice for the same city pair stores exactly one reference node, and
`get_references` for that pair returns it exactly once — provided the
shared data actually carries a url (the url string itself, and not the
Python string `"None"`). Without that proviso the claim fails: see the
counterexample. -/
theorem c5_reference_dedup (A B u : String) (t p : Option String)
    (hAB : A ≠ B) (hu : u ≠ "None") :
    (refTypeTriples (add_cities TCG.empty [pairCity5 A B u t p]).1).length = 1 ∧
    ∃ e, get_references (add_cities TCG.empty [pairCity5 A B u t p]).1 A B =
        .ok [e] ∧ e.url = u := by
  have hg := c5_state_eq A B u t p
  constructor
  · rw [hg, c5_refTypeCount]
    rfl
  · have hrel : is_reference_relevant (c5Final A B u t p) (RNode.blank 0)
        (RNode.uri A) (RNode.uri B) = true := by
      rw [is_reference_relevant_iff]
      refine ⟨RNode.blank 1, ?_, ?_, ?_⟩
      · rw [c5_objPair]
        exact List.mem_singleton.2 rfl
      · rw [c5_objCity A B u t p hAB]
        simp
      · rw [c5_objCity A B u t p hAB]
        simp
    have hval : valueOf (c5Final A B u t p) (RNode.blank 0) pUrl =
        some (RNode.lit u) := by
      unfold valueOf
      rw [c5_objUrl A B u t p hu]
      rfl
    refine ⟨mkRefEntry (c5Final A B u t p) (RNode.blank 0) u, ?_, rfl⟩
    unfold get_references
    rw [hg, c5_objA A B u t p hAB, c5_objB A B u t p hAB]
    have hnew : ((([] : List RefEntry)).map RefEntry.url).contains
        (toPyStr (RNode.lit u)) = false := rfl
    have hdup : ((([] : List RefEntry) ++
        [mkRefEntry (c5Final A B u t p) (RNode.blank 0)
          (toPyStr (RNode.lit u))]).map RefEntry.url).contains
        (toPyStr (RNode.lit u)) = true := by
      simp [mkRefEntry]
    rw [show ([RNode.blank 0] ++ [RNode.blank 0] : List RNode) =
        [RNode.blank 0, RNode.blank 0] from rfl,
      getRefsAux_cons_new hrel hval hnew,
      getRefsAux_cons_dup hrel hval hdup]
    rfl

theorem c5_reference_dedup_witness :
    ("https://a5c" : String) ≠ "https://b5c" ∧ ("http://r5c" : String) ≠ "None" ∧
    ((refTypeTriples (add_cities TCG.empty
        [pairCity5 "https://a5c" "https://b5c" "http://r5c"
          (some "T5c") (some "P5c")]).1).length = 1 ∧
      ∃ e, get_references (add_cities TCG.empty
          [pairCity5 "https://a5c" "https://b5c" "http://r5c"
            (some "T5c") (some "P5c")]).1 "https://a5c" "https://b5c" =
          .ok [e] ∧ e.url = "http://r5c") :=
  ⟨by decide, by decide,
    c5_reference_dedup "https://a5c" "https://b5c" "http://r5c"
      (some "T5c") (some "P5c") (by decide) (by decide)⟩

/-- C5 counterexample: the same url-less reference data (identical url,
title and publisher on both insertions — the url being `None`) inserted
twice does deduplicate into one stored node, but `get_references` then
raises `AttributeError` instead of returning the reference once. -/
theorem c5_counterexample :
    (refTypeTriples (add_cities TCG.empty
        [pairCity "https://a5" "https://b5"
          [some refNoUrl5, some refNoUrl5]]).1).length = 1 ∧
    get_references (add_cities TCG.empty
        [pairCity "https://a5" "https://b5"
          [some refNoUrl5, some refNoUrl5]]).1 "https://a5" "https://b5" =
      .error "AttributeError" := by
  exact ⟨rfl, rfl⟩

theorem mem_keyUnion {L R : List Rec} {x : String} :
    x ∈ keyUnion L R ↔ x ∈ L.map Rec.key ∨ x ∈ R.map Rec.key := by
  unfold keyUnion
  simp

theorem keyUnion_cons_left (l : Rec) (ls R : List Rec) :
    keyUnion (l :: ls) R = insert l.key (keyUnion ls R) := by
  unfold keyUnion
  rw [List.map_cons, List.toFinset_cons, Finset.insert_union]

theorem keyUnion_cons_right (L : List Rec) (r : Rec) (rs : List Rec) :
    keyUnion L (r :: rs) = insert r.key (keyUnion L rs) := by
  unfold keyUnion
  rw [List.map_cons, List.toFinset_cons, Finset.union_insert]

theorem align_nil_left_wikidata :
    ∀ (R : List Rec), ∀ e ∈ align [] R, e.wikidata = none := by
  intro R
  induction R with
  | nil =>
    intro e he
    simp [align] at he
  | cons r rs ih =>
    intro e he
    simp only [align] at he
    rcases List.mem_cons.1 he with rfl | he'
    · rfl
    · exact ih e he'

theorem align_nil_right_wikipedia :
    ∀ (L : List Rec), ∀ e ∈ align L [], e.wikipedia = none := by
  intro L
  induction L with
  | nil =>
    intro e he
    simp [align] at he
  | cons l ls ih =>
    intro e he
    simp only [align] at he
    rcases List.mem_cons.1 he with rfl | he'
    · rfl
    · exact ih e he'

theorem align_key_mem (L R : List Rec) :
    ∀ e ∈ align L R, entryKey e ∈ L.map Rec.key ∨ entryKey e ∈ R.map Rec.key := by
  induction L, R using align.induct with
  | case1 =>
    intro e he
    simp [align] at he
  | case2 r rs ih =>
    intro e he
    simp only [align] at he
    rcases List.mem_cons.1 he with rfl | he'
    · right
      simp [entryKey]
    · rcases ih e he' with h | h
      · simp at h
      · right
        rw [List.map_cons]
        exact List.mem_cons_of_mem _ h
  | case3 l ls ih =>
    intro e he
    simp only [align] at he
    rcases List.mem_cons.1 he with rfl | he'
    · left
      simp [entryKey]
    · rcases ih e he' with h | h
      · left
        rw [List.map_cons]
        exact List.mem_cons_of_mem _ h
      · simp at h
  | case4 l ls r rs h ih =>
    intro e he
    simp only [align, if_pos h] at he
    rcases List.mem_cons.1 he with rfl | he'
    · left
      simp [entryKey]
    · rcases ih e he' with hm | hm
      · left
        rw [List.map_cons]
        exact List.mem_cons_of_mem _ hm
      · right
        rw [List.map_cons]
        exact List.mem_cons_of_mem _ hm
  | case5 l ls r rs h h' ih =>
    intro e he
    simp only [align, if_neg h, if_pos h'] at he
    rcases List.mem_cons.1 he with rfl | he'
    · left
      simp [entryKey]
    · rcases ih e he' with hm | hm
      · left
        rw [List.map_cons]
        exact List.mem_cons_of_mem _ hm
      · exact Or.inr hm
  | case6 l ls r rs h h' ih =>
    intro e he
    simp only [align, if_neg h, if_neg h'] at he
    rcases List.mem_cons.1 he with rfl | he'
    · right
      simp [entryKey]
    · rcases ih e he' with hm | hm
      · exact Or.inl hm
      · right
        rw [List.map_cons]
        exact List.mem_cons_of_mem _ hm

theorem align_key_lt {L R : List Rec} {k : String}
    (hL : ∀ x ∈ L, k < x.key) (hR : ∀ x ∈ R, k < x.key) :
    ∀ e ∈ align L R, k < entryKey e := by
  intro e he
  rcases align_key_mem L R e he with h | h
  · rcases List.mem_map.1 h with ⟨x, hx, hk⟩
    rw [← hk]
    exact hL x hx
  · rcases List.mem_map.1 h with ⟨x, hx, hk⟩
    rw [← hk]
    exact hR x hx

theorem align_matched_iff (L R : List Rec) :
    L.Pairwise (fun a b => a.key < b.key) →
    R.Pairwise (fun a b => a.key < b.key) →
    ∀ e ∈ align L R, (e.wikidata.isSome = true ∧ e.wikipedia.isSome = true) ↔
      (entryKey e ∈ L.map Rec.key ∧ entryKey e ∈ R.map Rec.key) := by
  induction L, R using align.induct with
  | case1 =>
    intro _ _ e he
    simp [align] at he
  | case2 r rs ih =>
    intro _ _ e he
    simp only [align] at he
    rcases List.mem_cons.1 he with rfl | he'
    · exact iff_of_false (fun ⟨h1, _⟩ => by simp at h1) (fun ⟨h1, _⟩ => by simp at h1)
    · have hw := align_nil_left_wikidata rs e he'
      exact iff_of_false (fun ⟨h1, _⟩ => by rw [hw] at h1; simp at h1)
        (fun ⟨h1, _⟩ => by simp at h1)
  | case3 l ls ih =>
    intro _ _ e he
    simp only [align] at he
    rcases List.mem_cons.1 he with rfl | he'
    · exact iff_of_false (fun ⟨_, h2⟩ => by simp at h2) (fun ⟨_, h2⟩ => by simp at h2)
    · have hw := align_nil_right_wikipedia ls e he'
      exact iff_of_false (fun ⟨_, h2⟩ => by rw [hw] at h2; simp at h2)
        (fun ⟨_, h2⟩ => by simp at h2)
  | case4 l ls r rs h ih =>
    intro hL hR e he
    have hLc := List.pairwise_cons.1 hL
    have hRc := List.pairwise_cons.1 hR
    simp only [align, if_pos h] at he
    rcases List.mem_cons.1 he with rfl | he'
    · exact iff_of_true ⟨rfl, rfl⟩ ⟨by simp [entryKey], by simp [entryKey, h]⟩
    · have hiff := ih hLc.2 hRc.2 e he'
      have hlt : l.key < entryKey e :=
        align_key_lt hLc.1 (fun x hx => by rw [h]; exact hRc.1 x hx) e he'
      rw [hiff]
      constructor
      · rintro ⟨h1, h2⟩
        exact ⟨by rw [List.map_cons]; exact List.mem_cons_of_mem _ h1,
          by rw [List.map_cons]; exact List.mem_cons_of_mem _ h2⟩
      · rintro ⟨h1, h2⟩
        rw [List.map_cons] at h1 h2
        rcases List.mem_cons.1 h1 with heq | h1'
        · exact absurd (heq ▸ hlt) (lt_irrefl _)
        rcases List.mem_cons.1 h2 with heq | h2'
        · rw [← h] at heq
          exact absurd (heq ▸ hlt) (lt_irrefl _)
        exact ⟨h1', h2'⟩
  | case5 l ls r rs h h' ih =>
    intro hL hR e he
    have hLc := List.pairwise_cons.1 hL
    have hRc := List.pairwise_cons.1 hR
    have hRlb : ∀ x ∈ r :: rs, l.key < x.key := by
      intro x hx
      rcases List.mem_cons.1 hx with rfl | hx'
      · exact h'
      · exact lt_trans h' (hRc.1 x hx')
    simp only [align, if_neg h, if_pos h'] at he
    rcases List.mem_cons.1 he with rfl | he'
    · refine iff_of_false (fun ⟨_, h2⟩ => by simp at h2) (fun ⟨_, h2⟩ => ?_)
      have h2' : l.key ∈ (r :: rs).map Rec.key := by
        simpa [entryKey] using h2
      rcases List.mem_map.1 h2' with ⟨x, hx, hk⟩
      have := hRlb x hx
      rw [hk] at this
      exact lt_irrefl _ this
    · have hiff := ih hLc.2 hR e he'
      have hlt : l.key < entryKey e := align_key_lt hLc.1 hRlb e he'
      rw [hiff]
      constructor
      · rintro ⟨h1, h2⟩
        exact ⟨by rw [List.map_cons]; exact List.mem_cons_of_mem _ h1, h2⟩
      · rintro ⟨h1, h2⟩
        rw [List.map_cons] at h1
        rcases List.mem_cons.1 h1 with heq | h1'
        · exact absurd (heq ▸ hlt) (lt_irrefl _)
        exact ⟨h1', h2⟩
  | case6 l ls r rs h h' ih =>
    intro hL hR e he
    have hLc := List.pairwise_cons.1 hL
    have hRc := List.pairwise_cons.1 hR
    have hrl : r.key < l.key := by
      rcases lt_trichotomy l.key r.key with hc | hc | hc
      · exact absurd hc h'
      · exact absurd hc h
      · exact hc
    have hLlb : ∀ x ∈ l :: ls, r.key < x.key := by
      intro x hx
      rcases List.mem_cons.1 hx with rfl | hx'
      · exact hrl
      · exact lt_trans hrl (hLc.1 x hx')
    simp only [align, if_neg h, if_neg h'] at he
    rcases List.mem_cons.1 he with rfl | he'
    · refine iff_of_false (fun ⟨h1, _⟩ => by simp at h1) (fun ⟨h1, _⟩ => ?_)
      have h1' : r.key ∈ (l :: ls).map Rec.key := by
        simpa [entryKey] using h1
      rcases List.mem_map.1 h1' with ⟨x, hx, hk⟩
      have := hLlb x hx
      rw [hk] at this
      exact lt_irrefl _ this
    · have hiff := ih hL hRc.2 e he'
      have hlt : r.key < entryKey e := align_key_lt hLlb hRc.1 e he'
      rw [hiff]
      constructor
      · rintro ⟨h1, h2⟩
        exact ⟨h1, by rw [List.map_cons]; exact List.mem_cons_of_mem _ h2⟩
      · rintro ⟨h1, h2⟩
        rw [List.map_cons] at h2
        rcases List.mem_cons.1 h2 with heq | h2'
        · exact absurd (heq ▸ hlt) (lt_irrefl _)
        exact ⟨h1, h2'⟩

theorem align_length_card (L R : List Rec) :
    L.Pairwise (fun a b => a.key < b.key) →
    R.Pairwise (fun a b => a.key < b.key) →
    (align L R).length = (keyUnion L R).card := by
  induction L, R using align.induct with
  | case1 =>
    intro _ _
    simp [align, keyUnion]
  | case2 r rs ih =>
    intro hL hR
    have hRc := List.pairwise_cons.1 hR
    have hnm : r.key ∉ keyUnion ([] : List Rec) rs := by
      rw [mem_keyUnion]
      rintro (h | h)
      · simp at h
      · rcases List.mem_map.1 h with ⟨x, hx, hk⟩
        have := hRc.1 x hx
        rw [hk] at this
        exact lt_irrefl _ this
    simp only [align, List.length_cons]
    rw [ih hL hRc.2, keyUnion_cons_right, Finset.card_insert_of_not_mem hnm]
  | case3 l ls ih =>
    intro hL hR
    have hLc := List.pairwise_cons.1 hL
    have hnm : l.key ∉ keyUnion ls ([] : List Rec) := by
      rw [mem_keyUnion]
      rintro (h | h)
      · rcases List.mem_map.1 h with ⟨x, hx, hk⟩
        have := hLc.1 x hx
        rw [hk] at this
        exact lt_irrefl _ this
      · simp at h
    simp only [align, List.length_cons]
    rw [ih hLc.2 hR, keyUnion_cons_left, Finset.card_insert_of_not_mem hnm]
  | case4 l ls r rs h ih =>
    intro hL hR
    have hLc := List.pairwise_cons.1 hL
    have hRc := List.pairwise_cons.1 hR
    have hnm : r.key ∉ keyUnion ls rs := by
      rw [mem_keyUnion]
      rintro (hm | hm)
      · rcases List.mem_map.1 hm with ⟨x, hx, hk⟩
        have := hLc.1 x hx
        rw [hk, ← h] at this
        exact lt_irrefl _ this
      · rcases List.mem_map.1 hm with ⟨x, hx, hk⟩
        have := hRc.1 x hx
        rw [hk] at this
        exact lt_irrefl _ this
    simp only [align, if_pos h, List.length_cons]
    rw [ih hLc.2 hRc.2, keyUnion_cons_left, keyUnion_cons_right, h,
      Finset.insert_idem, Finset.card_insert_of_not_mem hnm]
  | case5 l ls r rs h h' ih =>
    intro hL hR
    have hLc := List.pairwise_cons.1 hL
    have hRc := List.pairwise_cons.1 hR
    have hnm : l.key ∉ keyUnion ls (r :: rs) := by
      rw [mem_keyUnion]
      rintro (hm | hm)
      · rcases List.mem_map.1 hm with ⟨x, hx, hk⟩
        have := hLc.1 x hx
        rw [hk] at this
        exact lt_irrefl _ this
      · rcases List.mem_map.1 hm with ⟨x, hx, hk⟩
        rcases List.mem_cons.1 hx with rfl | hx'
        · rw [hk] at h'
          exact absurd h' (lt_irrefl _)
        · have := lt_trans h' (hRc.1 x hx')
          rw [hk] at this
          exact lt_irrefl _ this
    simp only [align, if_neg h, if_pos h', List.length_cons]
    rw [ih hLc.2 hR, keyUnion_cons_left, Finset.card_insert_of_not_mem hnm]
  | case6 l ls r rs h h' ih =>
    intro hL hR
    have hLc := List.pairwise_cons.1 hL
    have hRc := List.pairwise_cons.1 hR
    have hrl : r.key < l.key := by
      rcases lt_trichotomy l.key r.key with hc | hc | hc
      · exact absurd hc h'
      · exact absurd hc h
      · exact hc
    have hnm : r.key ∉ keyUnion (l :: ls) rs := by
      rw [mem_keyUnion]
      rintro (hm | hm)
      · rcases List.mem_map.1 hm with ⟨x, hx, hk⟩
        rcases List.mem_cons.1 hx with rfl | hx'
        · rw [hk] at hrl
          exact absurd hrl (lt_irrefl _)
        · have := lt_trans hrl (hLc.1 x hx')
          rw [hk] at this
          exact lt_irrefl _ this
      · rcases List.mem_map.1 hm with ⟨x, hx, hk⟩
        have := hRc.1 x hx
        rw [hk] at this
        exact lt_irrefl _ this
    simp only [align, if_neg h, if_neg h', List.length_cons]
    rw [ih hL hRc.2, keyUnion_cons_right, Finset.card_insert_of_not_mem hnm]

/-- C1 (amended): for input lists sorted strictly ascending by key (no
duplicate keys, which is what the merge in `align` actually requires —
see the counterexample for duplicate keys under mere non-strict
sortedness), `align` returns exactly `|keys(L) ∪ keys(R)|` entries, the
left sides of the output read in order are exactly `L` (so every record
of `L` appears in exactly one entry, in original relative order, leftovers
included), the right sides are exactly `R`, and an entry carries both
sides iff its key occurs in both key lists. -/
theorem c1_align_correct (L R : List Rec)
    (hL : L.Pairwise (fun a b => a.key < b.key))
    (hR : R.Pairwise (fun a b => a.key < b.key)) :
    (align L R).length = (keyUnion L R).card ∧
    (align L R).filterMap AlignEntry.wikidata = L ∧
    (align L R).filterMap AlignEntry.wikipedia = R ∧
    ∀ e ∈ align L R, (e.wikidata.isSome = true ∧ e.wikipedia.isSome = true) ↔
      (entryKey e ∈ L.map Rec.key ∧ entryKey e ∈ R.map Rec.key) :=
  ⟨align_length_card L R hL hR, align_filterMap_left L R,
    align_filterMap_right L R, align_matched_iff L R hL hR⟩

theorem c1_align_correct_witness :
    ([⟨"a", 0⟩, ⟨"c", 1⟩] : List Rec).Pairwise (fun a b => a.key < b.key) ∧
    ([⟨"b", 2⟩, ⟨"c", 3⟩] : List Rec).Pairwise (fun a b => a.key < b.key) ∧
    ((align [⟨"a", 0⟩, ⟨"c", 1⟩] [⟨"b", 2⟩, ⟨"c", 3⟩]).length =
        (keyUnion [⟨"a", 0⟩, ⟨"c", 1⟩] [⟨"b", 2⟩, ⟨"c", 3⟩]).card ∧
      (align [⟨"a", 0⟩, ⟨"c", 1⟩] [⟨"b", 2⟩, ⟨"c", 3⟩]).filterMap
          AlignEntry.wikidata = [⟨"a", 0⟩, ⟨"c", 1⟩] ∧
      (align [⟨"a", 0⟩, ⟨"c", 1⟩] [⟨"b", 2⟩, ⟨"c", 3⟩]).filterMap
          AlignEntry.wikipedia = [⟨"b", 2⟩, ⟨"c", 3⟩] ∧
      ∀ e ∈ align [⟨"a", 0⟩, ⟨"c", 1⟩] [⟨"b", 2⟩, ⟨"c", 3⟩],
        (e.wikidata.isSome = true ∧ e.wikipedia.isSome = true) ↔
          (entryKey e ∈ ([⟨"a", 0⟩, ⟨"c", 1⟩] : List Rec).map Rec.key ∧
            entryKey e ∈ ([⟨"b", 2⟩, ⟨"c", 3⟩] : List Rec).map Rec.key)) := by
  have hac : ("a" : String) < "c" := String.lt_iff_toList_lt.2 (by decide)
  have hbc : ("b" : String) < "c" := String.lt_iff_toList_lt.2 (by decide)
  have hL : ([⟨"a", 0⟩, ⟨"c", 1⟩] : List Rec).Pairwise
      (fun a b => a.key < b.key) := by
    refine List.Pairwise.cons ?_ (List.Pairwise.cons ?_ List.Pairwise.nil)
    · intro x hx
      rw [List.mem_singleton] at hx
      subst hx
      exact hac
    · intro x hx
      exact absurd hx (List.not_mem_nil x)
  have hR : ([⟨"b", 2⟩, ⟨"c", 3⟩] : List Rec).Pairwise
      (fun a b => a.key < b.key) := by
    refine List.Pairwise.cons ?_ (List.Pairwise.cons ?_ List.Pairwise.nil)
    · intro x hx
      rw [List.mem_singleton] at hx
      subst hx
      exact hbc
    · intro x hx
      exact absurd hx (List.not_mem_nil x)
  exact ⟨hL, hR, c1_align_correct [⟨"a", 0⟩, ⟨"c", 1⟩] [⟨"b", 2⟩, ⟨"c", 3⟩] hL hR⟩

/-- C1 counterexample: two records sharing the key `"a"` form a list that
is sorted ascending (non-strictly, which is all "sorted" guarantees when
keys repeat), yet `align` emits 2 entries while the key union has only 1
element — the claimed output count `|keys(L) ∪ keys(R)|` fails. -/
theorem c1_counterexample :
    ([⟨"a", 0⟩, ⟨"a", 1⟩] : List Rec).Pairwise (fun a b => a.key ≤ b.key) ∧
    (align [⟨"a", 0⟩, ⟨"a", 1⟩] []).length = 2 ∧
    (keyUnion [⟨"a", 0⟩, ⟨"a", 1⟩] []).card = 1 := by
  refine ⟨?_, ?_, by decide⟩
  · refine List.Pairwise.cons ?_ (List.Pairwise.cons ?_ List.Pairwise.nil)
    · intro x hx
      rw [List.mem_singleton] at hx
      subst hx
      exact le_refl _
    · intro x hx
      exact absurd hx (List.not_mem_nil x)
  · simp [align]

end TwinCities
